import Mathlib

/-!
Shallow embedding of the day-stepped simulation engine of
`submission_prog_final/batch_sim.py` (repository `Coder1310/zebra`).

Modelling conventions:
* Python `int` is `ℤ` (house ids, travel durations, `days_left`, event ids);
  list positions and agent indices are `ℕ`.
* Python `float` probabilities are `ℚ`.
* A belief dict keyed by agent index is a total function `ℕ → Option V`;
  the program only ever inserts agent indices, so the key count of the dict
  equals the number of `some`-keys below the population size.
* The seeded `random.Random` source is modelled as two oracle streams, one of
  unit-interval rationals for `rng.random()` and one of naturals for the
  integer draws (`randint`, `choice`, `sample`); every consumption point of the
  Python code consumes from the corresponding stream in program order.  An
  exhausted stream yields `0`.
* The two rejection loops (`choose_other_value_*`) walk the integer stream; the
  case in which Python would loop forever (stream never leaves the true value)
  is mapped to returning the true value on stream exhaustion.
* CSV files are modelled as records of already-split fields (the textual
  splitting is done by the external `csv` module); fallible parsing is
  `Except String`, an `Except.error` modelling a raised Python exception.
-/

namespace Zebra

/-- Movement/exchange probabilities of one agent (source dataclass `Strategy`). -/
structure Strategy where
  p_left : ℚ
  p_right : ℚ
  p_home : ℚ
  p_house_exch : ℚ
  p_pet_exch : ℚ
  deriving DecidableEq, Repr

/-- Trip state of one agent (source dataclass `Trip`). -/
structure Trip where
  active : Bool
  from_house : ℤ
  to_house : ℤ
  days_left : ℤ
  start_event_id : ℤ
  deriving DecidableEq, Repr

/-- One agent (source dataclass `Agent`). -/
structure Agent where
  agent_id : String
  idx : ℕ
  house_id : ℤ
  location : ℤ
  drink : String
  smokes : String
  pet : String
  strategy : Strategy
  trip : Trip
  deriving DecidableEq, Repr

/-- A belief dict keyed by agent index. -/
def BMap (V : Type) : Type := ℕ → Option V

/-- Dict assignment `m[k] = v` (insert or overwrite). -/
def bset {V : Type} (m : BMap V) (k : ℕ) (v : V) : BMap V :=
  fun j => if j = k then some v else m j

/-- Dict union `dst.update(src)`: entries of `src` win on collision. -/
def bupdate {V : Type} (dst src : BMap V) : BMap V :=
  fun j =>
    match src j with
    | some v => some v
    | none => dst j

/-- Key count of a belief dict (`len`); all inserted keys are agent indices
below the population size `n`. -/
def bsize {V : Type} (n : ℕ) (m : BMap V) : ℕ :=
  ((Finset.range n).filter (fun j => (m j).isSome)).card

/-- Per-agent belief store (source dataclass `Belief`). -/
structure Belief where
  houses : BMap ℤ
  drinks : BMap String
  smokes : BMap String
  pets : BMap String

/-- Attribute value domains (source dataclass `Domains`). -/
structure Domains where
  drinks : List String
  smokes : List String
  pets : List String
  deriving DecidableEq, Repr

/-- The random source: two oracle streams (see the module docstring). -/
structure Rng where
  floats : List ℚ
  ints : List ℕ
  deriving DecidableEq, Repr

/-- One `rng.random()` draw. -/
def next_float (r : Rng) : ℚ × Rng :=
  match r.floats with
  | [] => (0, r)
  | x :: xs => (x, { r with floats := xs })

/-- One integer draw. -/
def next_int (r : Rng) : ℕ × Rng :=
  match r.ints with
  | [] => (0, r)
  | x :: xs => (x, { r with ints := xs })

/-- Source `neighbor_left`; Lean `ℤ` `%` agrees with Python `%` for a positive
modulus. -/
def neighbor_left (h : ℤ) (n_houses : ℤ) : ℤ :=
  ((h - 2) % n_houses) + 1

/-- Source `neighbor_right`. -/
def neighbor_right (h : ℤ) (n_houses : ℤ) : ℤ :=
  (h % n_houses) + 1

/-- The `right` duration table of `travel_days_6`; outside 1..6 Python would
raise `KeyError`, modelled by a junk default of 1. -/
def right6 (h : ℤ) : ℤ :=
  if h = 1 then 2 else if h = 2 then 1 else if h = 3 then 2
  else if h = 4 then 2 else if h = 5 then 2 else if h = 6 then 3 else 1

/-- The `left` duration table of `travel_days_6`. -/
def left6 (h : ℤ) : ℤ :=
  if h = 1 then 3 else if h = 2 then 2 else if h = 3 then 1
  else if h = 4 then 2 else if h = 5 then 2 else if h = 6 then 2 else 1

/-- Source `travel_days_6`. -/
def travel_days_6 (from_house to_house : ℤ) : ℤ :=
  if to_house = neighbor_right from_house 6 then right6 from_house
  else if to_house = neighbor_left from_house 6 then left6 from_house
  else 1

/-- Source `travel_days`. -/
def travel_days (from_house to_house n_houses : ℤ) : ℤ :=
  if from_house = to_house then 0
  else if n_houses = 6 then travel_days_6 from_house to_house
  else 1

/-- Source `sample_direction`: one uniform draw partitioned by the movement
probabilities. -/
def sample_direction (s : Strategy) (r : Rng) : String × Rng :=
  let p := next_float r
  if p.1 < s.p_left then ("left", p.2)
  else if p.1 - s.p_left < s.p_right then ("right", p.2)
  else ("home", p.2)

/-- The empty belief store. -/
def empty_belief : Belief :=
  { houses := fun _ => none, drinks := fun _ => none
    smokes := fun _ => none, pets := fun _ => none }

/-- The initial belief of one agent: its own four attributes, keyed by its own
index (body of the loop of source `init_beliefs`). -/
def self_belief (a : Agent) : Belief :=
  { houses := bset (fun _ => none) a.idx a.house_id
    drinks := bset (fun _ => none) a.idx a.drink
    smokes := bset (fun _ => none) a.idx a.smokes
    pets := bset (fun _ => none) a.idx a.pet }

/-- Source `init_beliefs`. -/
def init_beliefs (agents : List Agent) : List Belief :=
  agents.map self_belief

/-- Rejection loop of `choose_other_value_int`: one `rng.randint(1, n)` draw is
one stream natural `d`, landing on `1 + d % n ∈ [1, n]`. -/
def reject_int (n : ℤ) (true_v : ℤ) : List ℕ → ℤ × List ℕ
  | [] => (true_v, [])
  | d :: rest =>
    let c : ℤ := 1 + (d : ℤ) % n
    if c = true_v then reject_int n true_v rest else (c, rest)

/-- Source `choose_other_value_int`. -/
def choose_other_value_int (n : ℤ) (true_v : ℤ) (r : Rng) : ℤ × Rng :=
  if n ≤ 1 then (true_v, r)
  else
    let p := reject_int n true_v r.ints
    (p.1, { r with ints := p.2 })

/-- Rejection loop of `choose_other_value_str`: one `rng.choice(values)` draw is
one stream natural used as an index modulo the list length. -/
def reject_str (values : List String) (true_v : String) : List ℕ → String × List ℕ
  | [] => (true_v, [])
  | d :: rest =>
    let c := values.getD (d % values.length) ""
    if c = true_v then reject_str values true_v rest else (c, rest)

/-- Source `choose_other_value_str`. -/
def choose_other_value_str (values : List String) (true_v : String) (r : Rng) :
    String × Rng :=
  if values.length = 0 then (true_v, r)
  else if values.length = 1 then (values.getD 0 "", r)
  else
    let p := reject_str values true_v r.ints
    (p.1, { r with ints := p.2 })

/-- One corruption coin `noise > 0.0 and rng.random() < noise`; the Python `and`
short-circuits, so no draw happens when `noise ≤ 0`. -/
def noise_coin (noise : ℚ) (r : Rng) : Bool × Rng :=
  if 0 < noise then
    let p := next_float r
    (decide (p.1 < noise), p.2)
  else (false, r)

/-- Source `learn_direct`: record the subject's four attributes into the
believer's store, each independently corrupted with probability `noise`. -/
def learn_direct (belief : Belief) (other : Agent) (n_houses : ℤ)
    (domains : Domains) (noise : ℚ) (r : Rng) : Belief × Rng :=
  let c1 := noise_coin noise r
  let hv := if c1.1 then choose_other_value_int n_houses other.house_id c1.2
            else (other.house_id, c1.2)
  let c2 := noise_coin noise hv.2
  let dv := if c2.1 then choose_other_value_str domains.drinks other.drink c2.2
            else (other.drink, c2.2)
  let c3 := noise_coin noise dv.2
  let sv := if c3.1 then choose_other_value_str domains.smokes other.smokes c3.2
            else (other.smokes, c3.2)
  let c4 := noise_coin noise sv.2
  let pv := if c4.1 then choose_other_value_str domains.pets other.pet c4.2
            else (other.pet, c4.2)
  ({ houses := bset belief.houses other.idx hv.1
     drinks := bset belief.drinks other.idx dv.1
     smokes := bset belief.smokes other.idx sv.1
     pets := bset belief.pets other.idx pv.1 }, pv.2)

/-- Source `merge_beliefs`: union all four dicts, `src` winning on collision. -/
def merge_beliefs (dst src : Belief) : Belief :=
  { houses := bupdate dst.houses src.houses
    drinks := bupdate dst.drinks src.drinks
    smokes := bupdate dst.smokes src.smokes
    pets := bupdate dst.pets src.pets }

/-- Source `sa_any`: known-fact count over `4 * n_agents`. -/
def sa_any (b : Belief) (n_agents : ℕ) : ℚ :=
  let total : ℚ := 4 * n_agents
  let known : ℕ := bsize n_agents b.houses + bsize n_agents b.drinks
    + bsize n_agents b.smokes + bsize n_agents b.pets
  if 0 < total then (known : ℚ) / total else 0

/-- Default agent, used for out-of-range list reads (where Python would raise
`IndexError`). -/
def dAgent : Agent :=
  { agent_id := "", idx := 0, house_id := 0, location := 0, drink := ""
    smokes := "", pet := ""
    strategy := { p_left := 0, p_right := 0, p_home := 0, p_house_exch := 0, p_pet_exch := 0 }
    trip := { active := false, from_house := 0, to_house := 0, days_left := 0, start_event_id := 0 } }

/-- Default belief, used for out-of-range list reads. -/
def dBelief : Belief := empty_belief

/-- One of the four counting loops of `sa_m1_true`: entries of `m` (keys are
agent indices `< n`) whose recorded value matches ground truth. -/
def count_true {V : Type} [DecidableEq V] (m : BMap V) (truth : ℕ → V) (n : ℕ) : ℕ :=
  ((List.range n).filter (fun j => decide (m j = some (truth j)))).length

/-- Source `sa_m1_true`: matching-entry count over `4 * n_agents`. -/
def sa_m1_true (b : Belief) (agents : List Agent) (n_agents : ℕ) : ℚ :=
  let total : ℚ := 4 * n_agents
  let ok : ℕ :=
    count_true b.houses (fun j => (agents.getD j dAgent).house_id) n_agents
    + count_true b.drinks (fun j => (agents.getD j dAgent).drink) n_agents
    + count_true b.smokes (fun j => (agents.getD j dAgent).smokes) n_agents
    + count_true b.pets (fun j => (agents.getD j dAgent).pet) n_agents
  if 0 < total then (ok : ℚ) / total else 0

/-- One cell of an event-log row. -/
inductive LogCell where
  | int (v : ℤ)
  | str (v : String)
  deriving DecidableEq, Repr

/-- Source `_pad_row` with the default width 10; Python pads with `""`. -/
def pad_row (row : List LogCell) : List LogCell :=
  if 10 ≤ row.length then row.take 10
  else row ++ List.replicate (10 - row.length) (LogCell.str "")

/-- The mutable state threaded through one run of `run_sim`. -/
structure SimState where
  agents : List Agent
  beliefs : List Belief
  rng : Rng
  event_id : ℤ
  log_rows : List (List LogCell)
  sa_rows : List (ℕ × ℚ × ℚ)

/-- The per-run configuration of `run_sim` (the two output paths are modelled
by the flag of whether SA logging happens; the log row list is always built). -/
structure SimCfg where
  share_mode : String
  noise : ℚ
  n_houses : ℤ
  domains : Domains
  sa_flag : Bool
  sa_sample : ℕ
  deriving DecidableEq, Repr

/-- The host scan of phase 1: some currently-non-traveling agent whose home
house and current location both equal `dest` (scanned over the list that
already contains the just-arrived traveler). -/
def host_scan (agents : List Agent) (dest : ℤ) : Bool :=
  agents.any (fun x =>
    !x.trip.active && decide (x.house_id = dest) && decide (x.location = dest))

/-- Body of the phase-1 loop (`# 1) Finish active trips`) for the agent at list
position `k`; threads the state together with the `arrived_today` list. -/
def finishOne (day : ℕ) (n_houses : ℤ) (sa : SimState × List ℕ) (k : ℕ) :
    SimState × List ℕ :=
  let s := sa.1
  let a := s.agents.getD k dAgent
  if a.trip.active = false then sa
  else
    let dl := a.trip.days_left - 1
    if 0 < dl then
      ({ s with agents := s.agents.set k { a with trip := { a.trip with days_left := dl } } }, sa.2)
    else
      let dest := a.trip.to_house
      let start_id := a.trip.start_event_id
      let a1 := { a with location := dest, trip := { a.trip with active := false, days_left := dl } }
      let ag1 := s.agents.set k a1
      let host_exists := host_scan ag1 dest
      let r : ℤ := if host_exists then 1 else 0
      let e1 := s.event_id + 1
      let row1 := pad_row [LogCell.int e1, LogCell.int (day : ℤ), LogCell.str "FinishTrip",
        LogCell.int start_id, LogCell.str a.agent_id, LogCell.int r]
      if host_exists then
        ({ s with agents := ag1, event_id := e1, log_rows := s.log_rows ++ [row1] },
          sa.2 ++ [a.idx])
      else
        let to_home := a.house_id
        let d := travel_days dest to_home n_houses
        let e2 := e1 + 1
        let a2 := { a1 with trip := (⟨true, dest, to_home, d, e2⟩ : Trip) }
        let row2 := pad_row [LogCell.int e2, LogCell.int (day : ℤ), LogCell.str "startTrip",
          LogCell.str a.agent_id, LogCell.int dest, LogCell.int to_home, LogCell.int d]
        ({ s with agents := s.agents.set k a2, event_id := e2, log_rows := s.log_rows ++ [row1, row2] }, sa.2)

/-- Phase 1 of a day: finish active trips, in list order. -/
def phase1 (day : ℕ) (n_houses : ℤ) (s : SimState) : SimState × List ℕ :=
  (List.range s.agents.length).foldl (finishOne day n_houses) (s, [])

/-- Phase 2: the `host_by_house` dict (built in list order, later writers
overwriting), read back at house `h`. -/
def host_by_house (agents : List Agent) (h : ℤ) : Option ℕ :=
  (List.range agents.length).foldl
    (fun acc k =>
      let x := agents.getD k dAgent
      if x.trip.active = false ∧ x.location = x.house_id ∧ x.location = h then some x.idx
      else acc)
    none

/-- The learning part of one phase-3 interaction: mutual noisy observation
followed by the optional bidirectional full belief merge of the "meet"
sharing mode. -/
def learn_phase (cfg : SimCfg) (s : SimState) (visitor_idx host_idx : ℕ) : SimState :=
  let visitor := s.agents.getD visitor_idx dAgent
  let host := s.agents.getD host_idx dAgent
  let lv := learn_direct (s.beliefs.getD visitor_idx dBelief) host cfg.n_houses
    cfg.domains cfg.noise s.rng
  let bs1 := s.beliefs.set visitor_idx lv.1
  let lh := learn_direct (bs1.getD host_idx dBelief) visitor cfg.n_houses
    cfg.domains cfg.noise lv.2
  let bs2 := bs1.set host_idx lh.1
  let bs3 :=
    if cfg.share_mode = "meet" then
      let m1 := merge_beliefs (bs2.getD visitor_idx dBelief) (bs2.getD host_idx dBelief)
      let bs3a := bs2.set visitor_idx m1
      let m2 := merge_beliefs (bs3a.getD host_idx dBelief) (bs3a.getD visitor_idx dBelief)
      bs3a.set host_idx m2
    else bs2
  { s with beliefs := bs3, rng := lh.2 }

/-- The pet-exchange part of one phase-3 interaction: two short-circuit
probability coins; on joint agreement the two pets are swapped, both parties'
self-beliefs updated, and a `changePet` event logged. -/
def pet_exchange (day : ℕ) (s : SimState) (visitor_idx host_idx : ℕ) : SimState :=
  let visitor := s.agents.getD visitor_idx dAgent
  let host := s.agents.getD host_idx dAgent
  let f1 := next_float s.rng
  let pet_agree :=
    if f1.1 ≤ visitor.strategy.p_pet_exch then
      let f2 := next_float f1.2
      (decide (f2.1 ≤ host.strategy.p_pet_exch), f2.2)
    else (false, f1.2)
  let s1 : SimState := { s with rng := pet_agree.2 }
  if pet_agree.1 then
    let v_before := visitor.pet
    let h_before := host.pet
    let ag2 := (s1.agents.set visitor_idx { visitor with pet := host.pet }).set
      host_idx { host with pet := visitor.pet }
    let b1 := s1.beliefs.getD visitor_idx dBelief
    let bsA := s1.beliefs.set visitor_idx { b1 with pets := bset b1.pets visitor_idx host.pet }
    let b2 := bsA.getD host_idx dBelief
    let bsB := bsA.set host_idx { b2 with pets := bset b2.pets host_idx visitor.pet }
    let e := s1.event_id + 1
    let row := pad_row [LogCell.int e, LogCell.int (day : ℤ), LogCell.str "changePet",
      LogCell.str visitor.agent_id, LogCell.str host.agent_id, LogCell.str v_before,
      LogCell.str h_before, LogCell.str host.pet, LogCell.str visitor.pet]
    { s1 with agents := ag2, beliefs := bsB, event_id := e, log_rows := s1.log_rows ++ [row] }
  else s1

/-- The house-exchange part of one phase-3 interaction (same structure as the
pet exchange, on the live post-pet-swap agent records). -/
def house_exchange (day : ℕ) (s : SimState) (visitor_idx host_idx : ℕ) : SimState :=
  let v2 := s.agents.getD visitor_idx dAgent
  let h2 := s.agents.getD host_idx dAgent
  let g1 := next_float s.rng
  let house_agree :=
    if g1.1 ≤ v2.strategy.p_house_exch then
      let g2 := next_float g1.2
      (decide (g2.1 ≤ h2.strategy.p_house_exch), g2.2)
    else (false, g1.2)
  let s2 : SimState := { s with rng := house_agree.2 }
  if house_agree.1 then
    let v_before := v2.house_id
    let h_before := h2.house_id
    let ag3 := (s2.agents.set visitor_idx { v2 with house_id := h2.house_id }).set
      host_idx { h2 with house_id := v2.house_id }
    let b1 := s2.beliefs.getD visitor_idx dBelief
    let bsA := s2.beliefs.set visitor_idx { b1 with houses := bset b1.houses visitor_idx h2.house_id }
    let b2 := bsA.getD host_idx dBelief
    let bsB := bsA.set host_idx { b2 with houses := bset b2.houses host_idx v2.house_id }
    let e := s2.event_id + 1
    let row := pad_row [LogCell.int e, LogCell.int (day : ℤ), LogCell.str "changeHouse",
      LogCell.str v2.agent_id, LogCell.str h2.agent_id, LogCell.int v_before,
      LogCell.int h_before, LogCell.int h2.house_id, LogCell.int v2.house_id]
    { s2 with agents := ag3, beliefs := bsB, event_id := e, log_rows := s2.log_rows ++ [row] }
  else s2

/-- Body of the phase-3 loop (`# 3) Interactions...`) for one arrived visitor:
the host lookup in the phase-2 snapshot, then learning, pet exchange and house
exchange in program order (the sub-steps re-read the live agent records, as the
Python object references do). -/
def visitOne (cfg : SimCfg) (day : ℕ) (hosts : ℤ → Option ℕ) (s : SimState)
    (visitor_idx : ℕ) : SimState :=
  let visitor := s.agents.getD visitor_idx dAgent
  let house := visitor.location
  match hosts house with
  | none => s
  | some host_idx =>
    if host_idx = visitor_idx then s
    else
      house_exchange day
        (pet_exchange day (learn_phase cfg s visitor_idx host_idx) visitor_idx host_idx)
        visitor_idx host_idx

/-- Body of the phase-4 loop (`# 4) After meeting: visitors go (back) home`). -/
def returnOne (day : ℕ) (n_houses : ℤ) (s : SimState) (visitor_idx : ℕ) : SimState :=
  let a := s.agents.getD visitor_idx dAgent
  if a.trip.active then s
  else if a.location = a.house_id then s
  else
    let from_h := a.location
    let to_h := a.house_id
    let d := travel_days from_h to_h n_houses
    let e := s.event_id + 1
    let a2 := { a with trip := (⟨true, from_h, to_h, d, e⟩ : Trip) }
    let row := pad_row [LogCell.int e, LogCell.int (day : ℤ), LogCell.str "startTrip",
      LogCell.str a.agent_id, LogCell.int from_h, LogCell.int to_h, LogCell.int d]
    { s with agents := s.agents.set visitor_idx a2, event_id := e, log_rows := s.log_rows ++ [row] }

/-- Body of the phase-5 loop (`# 5) Agents at home start new trips by
strategy`) for the agent at list position `k`. -/
def newTripOne (cfg : SimCfg) (day : ℕ) (s : SimState) (k : ℕ) : SimState :=
  let a := s.agents.getD k dAgent
  if a.trip.active then s
  else if ¬ a.location = a.house_id then s
  else
    let dr := sample_direction a.strategy s.rng
    if dr.1 = "home" then { s with rng := dr.2 }
    else
      let to_h := if dr.1 = "left" then neighbor_left a.location cfg.n_houses
                  else neighbor_right a.location cfg.n_houses
      let from_h := a.location
      let d := travel_days from_h to_h cfg.n_houses
      let e := s.event_id + 1
      let a2 := { a with trip := (⟨true, from_h, to_h, d, e⟩ : Trip) }
      let row := pad_row [LogCell.int e, LogCell.int (day : ℤ), LogCell.str "startTrip",
        LogCell.str a.agent_id, LogCell.int from_h, LogCell.int to_h, LogCell.int d]
      { s with agents := s.agents.set k a2, rng := dr.2, event_id := e, log_rows := s.log_rows ++ [row] }

/-- `rng.sample(pop, k)`: sampling without replacement, one integer draw per
selected element. -/
def rng_sample : List ℕ → ℕ → Rng → List ℕ × Rng
  | _, 0, r => ([], r)
  | pop, Nat.succ k, r =>
    if pop.length = 0 then ([], r)
    else
      let p := next_int r
      let i := p.1 % pop.length
      let rest := rng_sample (pop.eraseIdx i) k p.2
      (pop.getD i 0 :: rest.1, rest.2)

/-- Phase 6 (`# 6) SA logging`): per-day averaged awareness metrics, computed
over all agents or a random subsample. -/
def phase6 (cfg : SimCfg) (day : ℕ) (s : SimState) : SimState :=
  if cfg.sa_flag then
    let n := s.agents.length
    let avg_any : ℚ :=
      (((List.range n).map (fun i => sa_any (s.beliefs.getD i dBelief) n)).sum) / (n : ℚ)
    let sp :=
      if cfg.sa_sample = 0 ∨ n ≤ cfg.sa_sample then (List.range n, s.rng)
      else rng_sample (List.range n) cfg.sa_sample s.rng
    let avg_m1 : ℚ :=
      ((sp.1.map (fun i => sa_m1_true (s.beliefs.getD i dBelief) s.agents n)).sum)
        / (sp.1.length : ℚ)
    { s with rng := sp.2, sa_rows := s.sa_rows ++ [(day, avg_any, avg_m1)] }
  else s

/-- One full day of `run_sim`: the six ordered phases. -/
def day_step (cfg : SimCfg) (day : ℕ) (s : SimState) : SimState :=
  let p1 := phase1 day cfg.n_houses s
  let s1 := p1.1
  let arrived := p1.2
  let hosts := host_by_house s1.agents
  let s3 := arrived.foldl (visitOne cfg day hosts) s1
  let s4 := arrived.foldl (returnOne day cfg.n_houses) s3
  let s5 := (List.range s4.agents.length).foldl (newTripOne cfg day) s4
  phase6 cfg day s5

/-- The day loop of `run_sim` over an explicit list of day numbers. -/
def run_from (cfg : SimCfg) (days : List ℕ) (s : SimState) : SimState :=
  days.foldl (fun st d => day_step cfg d st) s

/-- The argument record of `run_sim` (file paths are modelled by the SA flag;
the event-log row list is always accumulated and returned). -/
structure RunArgs where
  agents : List Agent
  days : ℕ
  rng : Rng
  share_mode : String
  noise : ℚ
  n_houses : ℤ
  domains : Domains
  sa_flag : Bool
  sa_sample : ℕ

/-- Source `run_sim`: initialize beliefs, run the day loop for days `1..days`,
and return the event-log rows and the per-day metrics rows. -/
def run_sim (a : RunArgs) : List (List LogCell) × List (ℕ × ℚ × ℚ) :=
  let cfg : SimCfg :=
    { share_mode := a.share_mode, noise := a.noise, n_houses := a.n_houses
      domains := a.domains, sa_flag := a.sa_flag, sa_sample := a.sa_sample }
  let s0 : SimState :=
    { agents := a.agents, beliefs := init_beliefs a.agents, rng := a.rng
      event_id := 0, log_rows := [], sa_rows := [] }
  let sF := run_from cfg ((List.range a.days).map (fun d => d + 1)) s0
  (sF.log_rows, sF.sa_rows)

/-- A CSV file already split into records of fields; the first record is the
header consumed by `csv.DictReader`. -/
structure CsvFile where
  rows : List (List String)
  deriving DecidableEq, Repr

/-- Index of a column name in the header. -/
def find_col (header : List String) (name : String) : Option ℕ :=
  (List.range header.length).find? (fun i => header.getD i "" == name)

/-- `row[name]` of a `DictReader` row: a missing column is a raised `KeyError`;
a row shorter than the header yields `None` in Python, which poisons the later
conversions and is modelled as an error as well. -/
def get_field (header row : List String) (name : String) : Except String String :=
  match find_col header name with
  | none => Except.error "KeyError"
  | some i => if i < row.length then Except.ok (row.getD i "") else Except.error "None field"

/-- Digit-string parser used to model Python `int(...)`/`float(...)`; a
non-digit character is a raised `ValueError`. -/
def parse_nat_digits (cs : List Char) : Option ℕ :=
  if cs.isEmpty then none
  else cs.foldl
    (fun acc c => acc.bind (fun v => if c.isDigit then some (v * 10 + (c.toNat - 48)) else none))
    (some 0)

/-- Python `int(s)` on the fields this program reads. -/
def parse_int (s : String) : Except String ℤ :=
  match s.toList with
  | '-' :: rest =>
    match parse_nat_digits rest with
    | some v => Except.ok (-(v : ℤ))
    | none => Except.error "ValueError int"
  | cs =>
    match parse_nat_digits cs with
    | some v => Except.ok (v : ℤ)
    | none => Except.error "ValueError int"

/-- Python `float(s)` restricted to the plain decimal notations the data files
use; anything else is a raised `ValueError`. -/
def parse_decimal (s : String) : Except String ℚ :=
  let go : List Char → Except String ℚ := fun cs =>
    match cs.splitOn '.' with
    | [w] =>
      match parse_nat_digits w with
      | some v => Except.ok (v : ℚ)
      | none => Except.error "ValueError float"
    | [w, f] =>
      match parse_nat_digits w, parse_nat_digits f with
      | some a, some b => Except.ok ((a : ℚ) + (b : ℚ) / ((10 : ℚ) ^ f.length))
      | _, _ => Except.error "ValueError float"
    | _ => Except.error "ValueError float"
  match s.toList with
  | '-' :: rest =>
    match go rest with
    | Except.ok v => Except.ok (-v)
    | Except.error e => Except.error e
  | cs => go cs

/-- Source `_to_prob`: percentages above 1 are scaled down. -/
def to_prob (x : String) : Except String ℚ :=
  match parse_decimal x with
  | Except.ok v => Except.ok (if 1 < v then v / 100 else v)
  | Except.error e => Except.error e

/-- One parsed row of the fixed-instance file: house id, agent id, drink,
cigarette brand, pet. -/
def InitRow : Type := ℤ × String × String × String × String

/-- Parse one data row of the fixed-instance file (body of the reader loop of
source `read_zebra_init`). -/
def parse_init_row (header row : List String) : Except String InitRow :=
  match get_field header row "H" with
  | Except.error e => Except.error e
  | Except.ok hs =>
    match parse_int hs with
    | Except.error e => Except.error e
    | Except.ok h =>
      match get_field header row "I", get_field header row "D",
            get_field header row "S", get_field header row "P" with
      | Except.ok i, Except.ok d, Except.ok s, Except.ok p => Except.ok (h, i, d, s, p)
      | Except.error e, _, _, _ => Except.error e
      | _, Except.error e, _, _ => Except.error e
      | _, _, Except.error e, _ => Except.error e
      | _, _, _, Except.error e => Except.error e

/-- Parse the data rows in order; the first failing row raises. -/
def parse_init_rows (header : List String) : List (List String) → Except String (List InitRow)
  | [] => Except.ok []
  | r :: rs =>
    match parse_init_row header r with
    | Except.error e => Except.error e
    | Except.ok row =>
      match parse_init_rows header rs with
      | Except.error e => Except.error e
      | Except.ok rows => Except.ok (row :: rows)

/-- Source `read_zebra_init`: parse all rows, then sort by house id. -/
def read_zebra_init (f : CsvFile) : Except String (List InitRow) :=
  match f.rows with
  | [] => Except.ok []
  | header :: dataRows =>
    match parse_init_rows header dataRows with
    | Except.error e => Except.error e
    | Except.ok rows => Except.ok (rows.insertionSort (fun a b => a.1 ≤ b.1))

/-- Parse one data row of the strategy file (body of the reader loop of source
`read_strategies`). -/
def parse_strat_row (header row : List String) : Except String (String × Strategy) :=
  match get_field header row "I" with
  | Except.error e => Except.error e
  | Except.ok i =>
    match get_field header row "PLeft", get_field header row "PRight",
          get_field header row "PHome" with
    | Except.ok pl, Except.ok pr, Except.ok ph =>
      match get_field header row "PHouseExch", get_field header row "PPetExch" with
      | Except.ok phx, Except.ok ppx =>
        match to_prob pl, to_prob pr, to_prob ph, to_prob phx, to_prob ppx with
        | Except.ok a, Except.ok b, Except.ok c, Except.ok d, Except.ok e =>
          Except.ok (i, { p_left := a, p_right := b, p_home := c, p_house_exch := d, p_pet_exch := e })
        | Except.error e, _, _, _, _ => Except.error e
        | _, Except.error e, _, _, _ => Except.error e
        | _, _, Except.error e, _, _ => Except.error e
        | _, _, _, Except.error e, _ => Except.error e
        | _, _, _, _, Except.error e => Except.error e
      | Except.error e, _ => Except.error e
      | _, Except.error e => Except.error e
    | Except.error e, _, _ => Except.error e
    | _, Except.error e, _ => Except.error e
    | _, _, Except.error e => Except.error e

/-- Parse the strategy rows in order. -/
def parse_strat_rows (header : List String) :
    List (List String) → Except String (List (String × Strategy))
  | [] => Except.ok []
  | r :: rs =>
    match parse_strat_row header r with
    | Except.error e => Except.error e
    | Except.ok row =>
      match parse_strat_rows header rs with
      | Except.error e => Except.error e
      | Except.ok rows => Except.ok (row :: rows)

/-- Source `read_strategies`: the resulting dict, kept as the row list (a later
row for the same agent id overwrites an earlier one on lookup). -/
def read_strategies (f : CsvFile) : Except String (List (String × Strategy)) :=
  match f.rows with
  | [] => Except.ok []
  | header :: dataRows => parse_strat_rows header dataRows

/-- Dict lookup `strat.get(agent_id, default)`: the last matching row wins. -/
def strat_get (l : List (String × Strategy)) (k : String) (dflt : Strategy) : Strategy :=
  match l.reverse.find? (fun p => p.1 == k) with
  | some p => p.2
  | none => dflt

/-- The equal-thirds movement / zero-exchange default strategy. -/
def default_strategy : Strategy :=
  { p_left := 1/3, p_right := 1/3, p_home := 1/3, p_house_exch := 0, p_pet_exch := 0 }

/-- Sorted deduplicated attribute values, modelling Python `sorted(set(...))`. -/
def sorted_values (l : List String) : List String :=
  l.dedup.insertionSort (fun a b => a ≤ b)

/-- The synthetic attribute domains of the fallback branch. -/
def synthetic_domains : Domains :=
  { drinks := ["d0", "d1", "d2", "d3", "d4", "d5"]
    smokes := ["s0", "s1", "s2", "s3", "s4", "s5"]
    pets := ["p0", "p1", "p2", "p3", "p4", "p5"] }

/-- The synthetic fallback population of source `build_agents`. -/
def synthetic_agents (n_agents : ℕ) (houses : ℤ) : List Agent :=
  (List.range n_agents).map (fun (i : ℕ) =>
    let house_id := ((i : ℤ) % houses) + 1
    { agent_id := "a" ++ toString i, idx := i, house_id := house_id, location := house_id
      drink := synthetic_domains.drinks.getD (i % 6) ""
      smokes := synthetic_domains.smokes.getD (i % 6) ""
      pet := synthetic_domains.pets.getD (i % 6) ""
      strategy := default_strategy
      trip := { active := false, from_house := house_id, to_house := house_id
                days_left := 0, start_event_id := 0 } })

/-- The fixed-instance population branch of source `build_agents`. -/
def zebra_branch (fi fs : CsvFile) : Except String (List Agent × Domains × ℤ) :=
  match read_zebra_init fi with
  | Except.error e => Except.error e
  | Except.ok init_rows =>
    match read_strategies fs with
    | Except.error e => Except.error e
    | Except.ok strat =>
      let domains : Domains :=
        { drinks := sorted_values (init_rows.map (fun r => r.2.2.1))
          smokes := sorted_values (init_rows.map (fun r => r.2.2.2.1))
          pets := sorted_values (init_rows.map (fun r => r.2.2.2.2)) }
      let mk : ℕ → Agent := fun idx =>
        let r := init_rows.getD idx ((0 : ℤ), "", "", "", "")
        { agent_id := r.2.1, idx := idx, house_id := r.1, location := r.1
          drink := r.2.2.1, smokes := r.2.2.2.1, pet := r.2.2.2.2
          strategy := strat_get strat r.2.1 default_strategy
          trip := { active := false, from_house := r.1, to_house := r.1
                    days_left := 0, start_event_id := 0 } }
      let agents := (List.range init_rows.length).map mk
      Except.ok (agents, domains, 6)

/-- Source `build_agents`: the fixed-instance branch is taken only when the
request is for 6 agents and 6 houses and both files exist (`Path.exists`); in
every other case the synthetic fallback population is built.  The seed is
accepted but (as in the source) never consumed. -/
def build_agents (n_agents : ℕ) (houses : ℤ) (seed : ℕ)
    (zebra_init : Option CsvFile) (zebra_strat : Option CsvFile) :
    Except String (List Agent × Domains × ℤ) :=
  match zebra_init, zebra_strat with
  | some fi, some fs =>
    if n_agents = 6 ∧ houses = 6 then zebra_branch fi fs
    else Except.ok (synthetic_agents n_agents houses, synthetic_domains, houses)
  | _, _ => Except.ok (synthetic_agents n_agents houses, synthetic_domains, houses)

/-! ### General helpers about lists and folds -/

theorem getD_range (n i d : ℕ) (h : i < n) : (List.range n).getD i d = i := by
  simp [List.getD_eq_getElem?_getD, List.getElem?_range h]

theorem getD_map_lt {α β : Type _} (f : α → β) (l : List α) (i : ℕ) (h : i < l.length)
    (d : α) (e : β) : (l.map f).getD i e = f (l.getD i d) := by
  simp [List.getD_eq_getElem?_getD, List.getElem?_eq_getElem h,
    List.getElem?_eq_getElem (show i < (l.map f).length by simpa using h)]

theorem getD_set_ne {α : Type _} (l : List α) (k i : ℕ) (a d : α) (h : i ≠ k) :
    (l.set k a).getD i d = l.getD i d := by
  simp [List.getD_eq_getElem?_getD, List.getElem?_set_ne (Ne.symm h)]

theorem getD_set_self {α : Type _} (l : List α) (i : ℕ) (a d : α) (h : i < l.length) :
    (l.set i a).getD i d = a := by
  simp [List.getD_eq_getElem?_getD, List.getElem?_set_self, h]

theorem set_getD_self {α : Type _} (l : List α) (i : ℕ) (d : α) :
    l.set i (l.getD i d) = l := by
  apply List.ext_getElem?
  intro n
  by_cases hn : n = i
  · subst hn
    by_cases h : n < l.length
    · simp [List.getElem?_set_self, h, List.getD_eq_getElem?_getD, List.getElem?_eq_getElem h]
    · simp [List.getElem?_set, h, Nat.le_of_not_lt h]
  · simp [List.getElem?_set_ne (Ne.symm hn)]

theorem foldl_pred {σ α : Type _} (P : σ → Prop) (f : σ → α → σ) :
    ∀ (l : List α) (init : σ), P init → (∀ s x, x ∈ l → P s → P (f s x)) →
      P (l.foldl f init) := by
  intro l
  induction l with
  | nil => intro init h _; exact h
  | cons x xs ih =>
    intro init h hstep
    exact ih (f init x) (hstep init x (List.mem_cons_self x xs) h)
      (fun s y hy hs => hstep s y (List.mem_cons_of_mem x hy) hs)

theorem map_set_preserve {α β : Type _} (f : α → β) (l : List α) (k : ℕ) (a d : α)
    (h : f a = f (l.getD k d)) : (l.set k a).map f = l.map f := by
  by_cases hk : k < l.length
  · rw [List.map_set, h, ← getD_map_lt f l k hk d (f d), set_getD_self]
  · rw [List.set_eq_of_length_le (Nat.le_of_not_lt hk)]

theorem cons_set_perm {α : Type _} (x d : α) :
    ∀ (xs : List α) (m : ℕ), m < xs.length →
      List.Perm (xs.getD m d :: xs.set m x) (x :: xs) := by
  intro xs
  induction xs with
  | nil => intro m hm; simp at hm
  | cons y ys ih =>
    intro m hm
    cases m with
    | zero =>
      simp only [List.getD_cons_zero, List.set_cons_zero]
      exact List.Perm.swap x y ys
    | succ m =>
      simp only [List.getD_cons_succ, List.set_cons_succ]
      have h1 := ih m (by simpa using hm)
      exact ((List.Perm.swap y (ys.getD m d) (ys.set m x)).trans (h1.cons y)).trans
        (List.Perm.swap x y ys)

theorem set_set_swap_perm {α : Type _} (d : α) :
    ∀ (l : List α) (i j : ℕ), i < l.length → j < l.length → i ≠ j →
      List.Perm ((l.set i (l.getD j d)).set j (l.getD i d)) l := by
  intro l
  induction l with
  | nil => intro i j hi _ _; simp at hi
  | cons a t ih =>
    intro i j hi hj hij
    cases i with
    | zero =>
      cases j with
      | zero => exact absurd rfl hij
      | succ k =>
        simp only [List.getD_cons_succ, List.getD_cons_zero, List.set_cons_zero,
          List.set_cons_succ]
        exact cons_set_perm a d t k (by simpa using hj)
    | succ m =>
      cases j with
      | zero =>
        simp only [List.getD_cons_succ, List.getD_cons_zero, List.set_cons_succ,
          List.set_cons_zero]
        exact cons_set_perm a d t m (by simpa using hi)
      | succ k =>
        simp only [List.getD_cons_succ, List.set_cons_succ]
        exact (ih m k (by simpa using hi) (by simpa using hj)
          (fun h => hij (by rw [h]))).cons a

theorem set_swap_map_perm {β : Type _} (f : Agent → β) (ag : List Agent) (v h : ℕ)
    (hv : v < ag.length) (hh : h < ag.length) (hvh : v ≠ h) (A B : Agent)
    (hA : f A = f (ag.getD h dAgent)) (hB : f B = f (ag.getD v dAgent)) :
    List.Perm (((ag.set v A).set h B).map f) (ag.map f) := by
  rw [List.map_set, List.map_set, hA, hB,
    ← getD_map_lt f ag h hh dAgent (f dAgent), ← getD_map_lt f ag v hv dAgent (f dAgent)]
  exact set_set_swap_perm (f dAgent) (ag.map f) v h (by simpa using hv) (by simpa using hh) hvh

/-! ### Agent-index coherence -/

/-- The `idx` field of every agent equals its list position — true of every
population `build_agents` produces, and preserved by the day loop. -/
def IdxOk (agents : List Agent) : Prop :=
  ∀ k, k < agents.length → (agents.getD k dAgent).idx = k

theorem IdxOk_transfer {ag ag' : List Agent} (hlen : ag'.length = ag.length)
    (hmap : ag'.map (fun a => a.idx) = ag.map (fun a => a.idx)) (h : IdxOk ag) :
    IdxOk ag' := by
  intro k hk
  have hk' : k < ag.length := hlen ▸ hk
  have h1 : (ag'.map (fun a => a.idx)).getD k 0 = (ag.map (fun a => a.idx)).getD k 0 := by
    rw [hmap]
  rw [getD_map_lt _ _ _ hk dAgent 0, getD_map_lt _ _ _ hk' dAgent 0] at h1
  rw [h1]
  exact h k hk'

/-! ### The pointwise order on belief stores -/

/-- Key preservation between two belief dicts: every known key stays known. -/
def bLe {V : Type _} (m m' : BMap V) : Prop :=
  ∀ j, (m j).isSome = true → (m' j).isSome = true

/-- Key preservation on all four mappings of a belief store. -/
def beliefLe (b b' : Belief) : Prop :=
  bLe b.houses b'.houses ∧ bLe b.drinks b'.drinks ∧ bLe b.smokes b'.smokes ∧ bLe b.pets b'.pets

/-- Pointwise key preservation between two belief lists. -/
def beliefsLe (bs bs' : List Belief) : Prop :=
  ∀ i, beliefLe (bs.getD i dBelief) (bs'.getD i dBelief)

theorem bLe_refl {V : Type _} (m : BMap V) : bLe m m := fun _ h => h

theorem bLe_trans {V : Type _} {m1 m2 m3 : BMap V} (h1 : bLe m1 m2) (h2 : bLe m2 m3) :
    bLe m1 m3 := fun j h => h2 j (h1 j h)

theorem bLe_bset {V : Type _} (m : BMap V) (k : ℕ) (v : V) : bLe m (bset m k v) := by
  intro j h
  unfold bset
  by_cases hj : j = k <;> simp [hj, h]

theorem bLe_bupdate {V : Type _} (dst src : BMap V) : bLe dst (bupdate dst src) := by
  intro j h
  unfold bupdate
  cases hs : src j <;> simp [hs, h]

theorem beliefLe_refl (b : Belief) : beliefLe b b :=
  ⟨bLe_refl _, bLe_refl _, bLe_refl _, bLe_refl _⟩

theorem beliefLe_trans {b1 b2 b3 : Belief} (h1 : beliefLe b1 b2) (h2 : beliefLe b2 b3) :
    beliefLe b1 b3 :=
  ⟨bLe_trans h1.1 h2.1, bLe_trans h1.2.1 h2.2.1, bLe_trans h1.2.2.1 h2.2.2.1,
    bLe_trans h1.2.2.2 h2.2.2.2⟩

theorem beliefLe_learn (b : Belief) (o : Agent) (nH : ℤ) (doms : Domains) (noise : ℚ)
    (r : Rng) : beliefLe b (learn_direct b o nH doms noise r).1 := by
  unfold learn_direct
  exact ⟨bLe_bset _ _ _, bLe_bset _ _ _, bLe_bset _ _ _, bLe_bset _ _ _⟩

theorem beliefLe_merge (dst src : Belief) : beliefLe dst (merge_beliefs dst src) := by
  unfold merge_beliefs
  exact ⟨bLe_bupdate _ _, bLe_bupdate _ _, bLe_bupdate _ _, bLe_bupdate _ _⟩

theorem beliefLe_set_pets (b : Belief) (k : ℕ) (v : String) :
    beliefLe b { b with pets := bset b.pets k v } :=
  ⟨bLe_refl _, bLe_refl _, bLe_refl _, bLe_bset _ _ _⟩

theorem beliefLe_set_houses (b : Belief) (k : ℕ) (v : ℤ) :
    beliefLe b { b with houses := bset b.houses k v } :=
  ⟨bLe_bset _ _ _, bLe_refl _, bLe_refl _, bLe_refl _⟩

theorem beliefsLe_refl (bs : List Belief) : beliefsLe bs bs := fun _ => beliefLe_refl _

theorem beliefsLe_trans {b1 b2 b3 : List Belief} (h1 : beliefsLe b1 b2)
    (h2 : beliefsLe b2 b3) : beliefsLe b1 b3 :=
  fun i => beliefLe_trans (h1 i) (h2 i)

theorem beliefsLe_set (bs : List Belief) (i : ℕ) (b' : Belief)
    (h : beliefLe (bs.getD i dBelief) b') : beliefsLe bs (bs.set i b') := by
  intro j
  by_cases hj : j = i
  · subst hj
    by_cases hlt : j < bs.length
    · rw [getD_set_self _ _ _ _ hlt]
      exact h
    · rw [List.set_eq_of_length_le (Nat.le_of_not_lt hlt)]
      exact beliefLe_refl _
  · rw [getD_set_ne _ _ _ _ _ hj]
    exact beliefLe_refl _

theorem bsize_mono {V : Type _} (n : ℕ) {m m' : BMap V} (h : bLe m m') :
    bsize n m ≤ bsize n m' := by
  unfold bsize
  apply Finset.card_le_card
  intro j hj
  simp only [Finset.mem_filter, Finset.mem_range] at hj ⊢
  exact ⟨hj.1, h j hj.2⟩

/-! ### Frame lemmas: what each phase step leaves untouched -/

theorem getD_set_field {β : Type _} (f : Agent → β) (ag : List Agent) (v h : ℕ) (A : Agent)
    (hA : f A = f (ag.getD v dAgent)) :
    f ((ag.set v A).getD h dAgent) = f (ag.getD h dAgent) := by
  by_cases hvh : h = v
  · subst hvh
    by_cases hk : h < ag.length
    · rw [getD_set_self _ _ _ _ hk, hA]
    · rw [List.set_eq_of_length_le (Nat.le_of_not_lt hk)]
  · rw [getD_set_ne _ _ _ _ _ hvh]

theorem map_set2_preserve {β : Type _} (f : Agent → β) (ag : List Agent) (v h : ℕ)
    (A B : Agent) (hA : f A = f (ag.getD v dAgent)) (hB : f B = f (ag.getD h dAgent)) :
    ((ag.set v A).set h B).map f = ag.map f := by
  rw [map_set_preserve f _ h B dAgent (by rw [hB, getD_set_field f ag v h A hA]),
    map_set_preserve f ag v A dAgent hA]

theorem finishOne_frame (day : ℕ) (nH : ℤ) (sa : SimState × List ℕ) (k : ℕ) :
    (finishOne day nH sa k).1.beliefs = sa.1.beliefs
    ∧ (finishOne day nH sa k).1.rng = sa.1.rng
    ∧ (finishOne day nH sa k).1.sa_rows = sa.1.sa_rows
    ∧ (finishOne day nH sa k).1.agents.map (fun a => a.pet) = sa.1.agents.map (fun a => a.pet)
    ∧ (finishOne day nH sa k).1.agents.map (fun a => a.house_id)
        = sa.1.agents.map (fun a => a.house_id)
    ∧ (finishOne day nH sa k).1.agents.map (fun a => a.idx) = sa.1.agents.map (fun a => a.idx)
    ∧ (finishOne day nH sa k).1.agents.length = sa.1.agents.length := by
  unfold finishOne
  dsimp only
  split
  · exact ⟨rfl, rfl, rfl, rfl, rfl, rfl, rfl⟩
  · split
    · exact ⟨rfl, rfl, rfl, map_set_preserve _ _ _ _ dAgent rfl,
        map_set_preserve _ _ _ _ dAgent rfl, map_set_preserve _ _ _ _ dAgent rfl, by simp⟩
    · split
      · exact ⟨rfl, rfl, rfl, map_set_preserve _ _ _ _ dAgent rfl,
          map_set_preserve _ _ _ _ dAgent rfl, map_set_preserve _ _ _ _ dAgent rfl, by simp⟩
      · exact ⟨rfl, rfl, rfl, map_set_preserve _ _ _ _ dAgent rfl,
          map_set_preserve _ _ _ _ dAgent rfl, map_set_preserve _ _ _ _ dAgent rfl, by simp⟩

theorem returnOne_frame (day : ℕ) (nH : ℤ) (s : SimState) (v : ℕ) :
    (returnOne day nH s v).beliefs = s.beliefs
    ∧ (returnOne day nH s v).rng = s.rng
    ∧ (returnOne day nH s v).sa_rows = s.sa_rows
    ∧ (returnOne day nH s v).agents.map (fun a => a.pet) = s.agents.map (fun a => a.pet)
    ∧ (returnOne day nH s v).agents.map (fun a => a.house_id)
        = s.agents.map (fun a => a.house_id)
    ∧ (returnOne day nH s v).agents.map (fun a => a.idx) = s.agents.map (fun a => a.idx)
    ∧ (returnOne day nH s v).agents.length = s.agents.length := by
  unfold returnOne
  dsimp only
  split
  · exact ⟨rfl, rfl, rfl, rfl, rfl, rfl, rfl⟩
  · split
    · exact ⟨rfl, rfl, rfl, rfl, rfl, rfl, rfl⟩
    · exact ⟨rfl, rfl, rfl, map_set_preserve _ _ _ _ dAgent rfl,
        map_set_preserve _ _ _ _ dAgent rfl, map_set_preserve _ _ _ _ dAgent rfl, by simp⟩

theorem newTripOne_frame (cfg : SimCfg) (day : ℕ) (s : SimState) (k : ℕ) :
    (newTripOne cfg day s k).beliefs = s.beliefs
    ∧ (newTripOne cfg day s k).sa_rows = s.sa_rows
    ∧ (newTripOne cfg day s k).agents.map (fun a => a.pet) = s.agents.map (fun a => a.pet)
    ∧ (newTripOne cfg day s k).agents.map (fun a => a.house_id)
        = s.agents.map (fun a => a.house_id)
    ∧ (newTripOne cfg day s k).agents.map (fun a => a.idx) = s.agents.map (fun a => a.idx)
    ∧ (newTripOne cfg day s k).agents.length = s.agents.length := by
  unfold newTripOne
  dsimp only
  split
  · exact ⟨rfl, rfl, rfl, rfl, rfl, rfl⟩
  · split
    · exact ⟨rfl, rfl, rfl, rfl, rfl, rfl⟩
    · split
      · exact ⟨rfl, rfl, rfl, rfl, rfl, rfl⟩
      · exact ⟨rfl, rfl, map_set_preserve _ _ _ _ dAgent rfl,
          map_set_preserve _ _ _ _ dAgent rfl, map_set_preserve _ _ _ _ dAgent rfl, by simp⟩

theorem phase6_frame (cfg : SimCfg) (day : ℕ) (s : SimState) :
    (phase6 cfg day s).agents = s.agents ∧ (phase6 cfg day s).beliefs = s.beliefs
    ∧ (phase6 cfg day s).event_id = s.event_id
    ∧ (phase6 cfg day s).log_rows = s.log_rows := by
  unfold phase6
  dsimp only
  split
  · exact ⟨rfl, rfl, rfl, rfl⟩
  · exact ⟨rfl, rfl, rfl, rfl⟩

theorem learn_phase_frame (cfg : SimCfg) (s : SimState) (v h : ℕ) :
    (learn_phase cfg s v h).agents = s.agents
    ∧ (learn_phase cfg s v h).event_id = s.event_id
    ∧ (learn_phase cfg s v h).log_rows = s.log_rows
    ∧ (learn_phase cfg s v h).sa_rows = s.sa_rows := by
  unfold learn_phase
  exact ⟨rfl, rfl, rfl, rfl⟩

theorem pet_exchange_frame (day : ℕ) (s : SimState) (v h : ℕ) :
    (pet_exchange day s v h).sa_rows = s.sa_rows
    ∧ (pet_exchange day s v h).agents.map (fun a => a.house_id)
        = s.agents.map (fun a => a.house_id)
    ∧ (pet_exchange day s v h).agents.map (fun a => a.idx) = s.agents.map (fun a => a.idx)
    ∧ (pet_exchange day s v h).agents.length = s.agents.length := by
  unfold pet_exchange
  dsimp only
  split <;> split <;>
    first
      | exact ⟨rfl, rfl, rfl, rfl⟩
      | exact ⟨rfl, map_set2_preserve _ _ _ _ _ _ rfl rfl,
          map_set2_preserve _ _ _ _ _ _ rfl rfl, by simp⟩

theorem house_exchange_frame (day : ℕ) (s : SimState) (v h : ℕ) :
    (house_exchange day s v h).sa_rows = s.sa_rows
    ∧ (house_exchange day s v h).agents.map (fun a => a.pet) = s.agents.map (fun a => a.pet)
    ∧ (house_exchange day s v h).agents.map (fun a => a.idx) = s.agents.map (fun a => a.idx)
    ∧ (house_exchange day s v h).agents.length = s.agents.length := by
  unfold house_exchange
  dsimp only
  split <;> split <;>
    first
      | exact ⟨rfl, rfl, rfl, rfl⟩
      | exact ⟨rfl, map_set2_preserve _ _ _ _ _ _ rfl rfl,
          map_set2_preserve _ _ _ _ _ _ rfl rfl, by simp⟩

theorem pet_exchange_pets_perm (day : ℕ) (s : SimState) (v h : ℕ)
    (hv : v < s.agents.length) (hh : h < s.agents.length) (hvh : v ≠ h) :
    List.Perm ((pet_exchange day s v h).agents.map (fun a => a.pet))
      (s.agents.map (fun a => a.pet)) := by
  unfold pet_exchange
  dsimp only
  split <;> split <;>
    first
      | exact List.Perm.refl _
      | exact set_swap_map_perm _ _ v h hv hh hvh _ _ rfl rfl

theorem house_exchange_houses_perm (day : ℕ) (s : SimState) (v h : ℕ)
    (hv : v < s.agents.length) (hh : h < s.agents.length) (hvh : v ≠ h) :
    List.Perm ((house_exchange day s v h).agents.map (fun a => a.house_id))
      (s.agents.map (fun a => a.house_id)) := by
  unfold house_exchange
  dsimp only
  split <;> split <;>
    first
      | exact List.Perm.refl _
      | exact set_swap_map_perm _ _ v h hv hh hvh _ _ rfl rfl

theorem foldl_preserve {σ α β : Type _} (g : σ → β) (f : σ → α → σ)
    (hf : ∀ st x, g (f st x) = g st) (l : List α) (init : σ) :
    g (l.foldl f init) = g init :=
  foldl_pred (fun st => g st = g init) f l init rfl (fun st x _ h => (hf st x).trans h)

theorem learn_phase_beliefsLe (cfg : SimCfg) (s : SimState) (v h : ℕ) :
    beliefsLe s.beliefs (learn_phase cfg s v h).beliefs := by
  unfold learn_phase
  dsimp only
  split
  · exact beliefsLe_trans (beliefsLe_set _ v _ (beliefLe_learn _ _ _ _ _ _))
      (beliefsLe_trans (beliefsLe_set _ h _ (beliefLe_learn _ _ _ _ _ _))
        (beliefsLe_trans (beliefsLe_set _ v _ (beliefLe_merge _ _))
          (beliefsLe_set _ h _ (beliefLe_merge _ _))))
  · exact beliefsLe_trans (beliefsLe_set _ v _ (beliefLe_learn _ _ _ _ _ _))
      (beliefsLe_set _ h _ (beliefLe_learn _ _ _ _ _ _))

theorem pet_exchange_beliefsLe (day : ℕ) (s : SimState) (v h : ℕ) :
    beliefsLe s.beliefs (pet_exchange day s v h).beliefs := by
  unfold pet_exchange
  dsimp only
  split <;> split <;>
    first
      | exact beliefsLe_refl _
      | exact beliefsLe_trans (beliefsLe_set _ v _ (beliefLe_set_pets _ _ _))
          (beliefsLe_set _ h _ (beliefLe_set_pets _ _ _))

theorem house_exchange_beliefsLe (day : ℕ) (s : SimState) (v h : ℕ) :
    beliefsLe s.beliefs (house_exchange day s v h).beliefs := by
  unfold house_exchange
  dsimp only
  split <;> split <;>
    first
      | exact beliefsLe_refl _
      | exact beliefsLe_trans (beliefsLe_set _ v _ (beliefLe_set_houses _ _ _))
          (beliefsLe_set _ h _ (beliefLe_set_houses _ _ _))

theorem visitOne_beliefsLe (cfg : SimCfg) (day : ℕ) (hosts : ℤ → Option ℕ) (s : SimState)
    (v : ℕ) : beliefsLe s.beliefs (visitOne cfg day hosts s v).beliefs := by
  unfold visitOne
  dsimp only
  cases hosts (s.agents.getD v dAgent).location with
  | none => exact beliefsLe_refl _
  | some j =>
    dsimp only
    split
    · exact beliefsLe_refl _
    · exact beliefsLe_trans (learn_phase_beliefsLe _ _ _ _)
        (beliefsLe_trans (pet_exchange_beliefsLe _ _ _ _) (house_exchange_beliefsLe _ _ _ _))

theorem phase1_beliefs (day : ℕ) (nH : ℤ) (s : SimState) :
    (phase1 day nH s).1.beliefs = s.beliefs := by
  unfold phase1
  exact foldl_preserve (fun p => p.1.beliefs) (finishOne day nH)
    (fun st x => (finishOne_frame day nH st x).1) _ _

theorem day_step_beliefsLe (cfg : SimCfg) (day : ℕ) (s : SimState) :
    beliefsLe s.beliefs (day_step cfg day s).beliefs := by
  unfold day_step
  dsimp only
  rw [(phase6_frame _ _ _).2.1]
  rw [foldl_preserve (fun st => st.beliefs) (newTripOne cfg day)
    (fun st x => (newTripOne_frame cfg day st x).1) _ _]
  rw [foldl_preserve (fun st => st.beliefs) (returnOne day cfg.n_houses)
    (fun st x => (returnOne_frame day cfg.n_houses st x).1) _ _]
  have h3 := foldl_pred (fun st => beliefsLe (phase1 day cfg.n_houses s).1.beliefs st.beliefs)
    (visitOne cfg day (host_by_house (phase1 day cfg.n_houses s).1.agents))
    (phase1 day cfg.n_houses s).2 (phase1 day cfg.n_houses s).1 (beliefsLe_refl _)
    (fun st x _ hst => beliefsLe_trans hst (visitOne_beliefsLe _ _ _ _ _))
  rw [← phase1_beliefs day cfg.n_houses s]
  exact h3

/-! ### C6: known-fact monotonicity -/

/-- C6: across one full day of the loop, every agent's belief store only grows:
no key of any of the four mappings is ever removed (pointwise key
preservation), and consequently the size of each mapping is non-decreasing —
for every key universe bound `n`, under any sharing mode and noise level. -/
theorem c6_monotonicity (cfg : SimCfg) (day : ℕ) (s : SimState) (i : ℕ) :
    beliefLe (s.beliefs.getD i dBelief) ((day_step cfg day s).beliefs.getD i dBelief)
    ∧ ∀ n, bsize n (s.beliefs.getD i dBelief).houses
          ≤ bsize n ((day_step cfg day s).beliefs.getD i dBelief).houses
      ∧ bsize n (s.beliefs.getD i dBelief).drinks
          ≤ bsize n ((day_step cfg day s).beliefs.getD i dBelief).drinks
      ∧ bsize n (s.beliefs.getD i dBelief).smokes
          ≤ bsize n ((day_step cfg day s).beliefs.getD i dBelief).smokes
      ∧ bsize n (s.beliefs.getD i dBelief).pets
          ≤ bsize n ((day_step cfg day s).beliefs.getD i dBelief).pets := by
  have h := day_step_beliefsLe cfg day s i
  exact ⟨h, fun n => ⟨bsize_mono n h.1, bsize_mono n h.2.1, bsize_mono n h.2.2.1,
    bsize_mono n h.2.2.2⟩⟩

/-- C6 witness: the size bound at a small concrete state. -/
theorem c6_monotonicity_witness :
    bsize 1 ((⟨[], [self_belief dAgent], ⟨[], []⟩, 0, [], []⟩ : SimState).beliefs.getD 0 dBelief).houses
      ≤ bsize 1 ((day_step ⟨"meet", 0, 6, ⟨[], [], []⟩, true, 0⟩ 1
          (⟨[], [self_belief dAgent], ⟨[], []⟩, 0, [], []⟩ : SimState)).beliefs.getD 0 dBelief).houses :=
  ((c6_monotonicity ⟨"meet", 0, 6, ⟨[], [], []⟩, true, 0⟩ 1
    (⟨[], [self_belief dAgent], ⟨[], []⟩, 0, [], []⟩ : SimState) 0).2 1).1

theorem host_by_house_spec (ag : List Agent) (hIdx : IdxOk ag) (h : ℤ) :
    ∀ j, host_by_house ag h = some j →
      j < ag.length ∧ (ag.getD j dAgent).trip.active = false
      ∧ (ag.getD j dAgent).location = (ag.getD j dAgent).house_id := by
  unfold host_by_house
  refine foldl_pred (fun acc : Option ℕ => ∀ j, acc = some j →
      j < ag.length ∧ (ag.getD j dAgent).trip.active = false
      ∧ (ag.getD j dAgent).location = (ag.getD j dAgent).house_id)
    _ (List.range ag.length) none (by simp) ?_
  intro acc k hk hacc j hj
  dsimp only at hj
  split at hj
  · next hcond =>
    injection hj with hjj
    have hklt : k < ag.length := List.mem_range.mp hk
    have hkidx : (ag.getD k dAgent).idx = k := hIdx k hklt
    rw [← hjj, hkidx]
    exact ⟨hklt, hcond.1, hcond.2.1⟩
  · exact hacc j hj

theorem finishOne_arrived (day : ℕ) (nH : ℤ) (sa : SimState × List ℕ) (k : ℕ) :
    (finishOne day nH sa k).2 = sa.2
    ∨ (finishOne day nH sa k).2 = sa.2 ++ [(sa.1.agents.getD k dAgent).idx] := by
  unfold finishOne
  dsimp only
  split
  · exact Or.inl rfl
  · split
    · exact Or.inl rfl
    · split
      · exact Or.inr rfl
      · exact Or.inl rfl

theorem phase1_spec (day : ℕ) (nH : ℤ) (s : SimState) (hIdx : IdxOk s.agents) :
    (phase1 day nH s).1.agents.length = s.agents.length
    ∧ (phase1 day nH s).1.agents.map (fun a => a.idx) = s.agents.map (fun a => a.idx)
    ∧ (phase1 day nH s).1.agents.map (fun a => a.pet) = s.agents.map (fun a => a.pet)
    ∧ (phase1 day nH s).1.agents.map (fun a => a.house_id)
        = s.agents.map (fun a => a.house_id)
    ∧ ∀ v ∈ (phase1 day nH s).2, v < s.agents.length := by
  unfold phase1
  refine foldl_pred (fun p : SimState × List ℕ =>
      p.1.agents.length = s.agents.length
      ∧ p.1.agents.map (fun a => a.idx) = s.agents.map (fun a => a.idx)
      ∧ p.1.agents.map (fun a => a.pet) = s.agents.map (fun a => a.pet)
      ∧ p.1.agents.map (fun a => a.house_id) = s.agents.map (fun a => a.house_id)
      ∧ ∀ v ∈ p.2, v < s.agents.length)
    (finishOne day nH) (List.range s.agents.length) (s, [])
    ⟨rfl, rfl, rfl, rfl, by simp⟩ ?_
  intro st k hk hst
  have hf := finishOne_frame day nH st k
  refine ⟨hf.2.2.2.2.2.2.trans hst.1, hf.2.2.2.2.2.1.trans hst.2.1,
    hf.2.2.2.1.trans hst.2.2.1, hf.2.2.2.2.1.trans hst.2.2.2.1, ?_⟩
  rcases finishOne_arrived day nH st k with harr | harr
  · rw [harr]
    exact hst.2.2.2.2
  · rw [harr]
    intro v hv
    rcases List.mem_append.mp hv with hv1 | hv2
    · exact hst.2.2.2.2 v hv1
    · have hIdxSt : IdxOk st.1.agents := IdxOk_transfer hst.1 hst.2.1 hIdx
      have hklt : k < st.1.agents.length := by
        rw [hst.1]
        exact List.mem_range.mp hk
      have : v = (st.1.agents.getD k dAgent).idx := by
        simpa using hv2
      rw [this, hIdxSt k hklt]
      rw [← hst.1]
      exact hklt

theorem visitOne_conserve (cfg : SimCfg) (day : ℕ) (ag1 : List Agent) (hIdx1 : IdxOk ag1)
    (st : SimState) (v : ℕ) (hv : v < st.agents.length)
    (hlen1 : st.agents.length = ag1.length) :
    List.Perm ((visitOne cfg day (host_by_house ag1) st v).agents.map (fun a => a.pet))
      (st.agents.map (fun a => a.pet))
    ∧ List.Perm ((visitOne cfg day (host_by_house ag1) st v).agents.map (fun a => a.house_id))
      (st.agents.map (fun a => a.house_id))
    ∧ (visitOne cfg day (host_by_house ag1) st v).agents.map (fun a => a.idx)
        = st.agents.map (fun a => a.idx)
    ∧ (visitOne cfg day (host_by_house ag1) st v).agents.length = st.agents.length := by
  unfold visitOne
  dsimp only
  cases hh : host_by_house ag1 (st.agents.getD v dAgent).location with
  | none => exact ⟨List.Perm.refl _, List.Perm.refl _, rfl, rfl⟩
  | some j =>
    dsimp only
    split
    · exact ⟨List.Perm.refl _, List.Perm.refl _, rfl, rfl⟩
    · next hjv =>
      have hjlt : j < st.agents.length := by
        rw [hlen1]
        exact (host_by_house_spec ag1 hIdx1 _ j hh).1
      have hvj : v ≠ j := fun e => hjv (e.symm)
      have hlf : (learn_phase cfg st v j).agents = st.agents := (learn_phase_frame cfg st v j).1
      have hppl : (pet_exchange day (learn_phase cfg st v j) v j).agents.length
          = st.agents.length := by
        rw [(pet_exchange_frame day (learn_phase cfg st v j) v j).2.2.2, hlf]
      refine ⟨?_, ?_, ?_, ?_⟩
      · rw [(house_exchange_frame day (pet_exchange day (learn_phase cfg st v j) v j) v j).2.1]
        have hp := pet_exchange_pets_perm day (learn_phase cfg st v j) v j
          (by rw [hlf]; exact hv) (by rw [hlf]; exact hjlt) hvj
        rw [hlf] at hp
        exact hp
      · have hp := house_exchange_houses_perm day
          (pet_exchange day (learn_phase cfg st v j) v j) v j
          (by rw [hppl]; exact hv) (by rw [hppl]; exact hjlt) hvj
        rw [(pet_exchange_frame day (learn_phase cfg st v j) v j).2.1, hlf] at hp
        exact hp
      · rw [(house_exchange_frame day (pet_exchange day (learn_phase cfg st v j) v j) v j).2.2.1,
          (pet_exchange_frame day (learn_phase cfg st v j) v j).2.2.1, hlf]
      · rw [(house_exchange_frame day (pet_exchange day (learn_phase cfg st v j) v j) v j).2.2.2,
          hppl]

theorem day_step_conserve (cfg : SimCfg) (day : ℕ) (s : SimState) (hIdx : IdxOk s.agents) :
    List.Perm ((day_step cfg day s).agents.map (fun a => a.pet))
      (s.agents.map (fun a => a.pet))
    ∧ List.Perm ((day_step cfg day s).agents.map (fun a => a.house_id))
      (s.agents.map (fun a => a.house_id)) := by
  obtain ⟨hlen1, hidx1, hpet1, hhouse1, harr⟩ := phase1_spec day cfg.n_houses s hIdx
  have hIdx1 : IdxOk (phase1 day cfg.n_houses s).1.agents := IdxOk_transfer hlen1 hidx1 hIdx
  unfold day_step
  dsimp only
  have H3 := foldl_pred (fun st : SimState =>
      List.Perm (st.agents.map (fun a => a.pet))
        ((phase1 day cfg.n_houses s).1.agents.map (fun a => a.pet))
      ∧ List.Perm (st.agents.map (fun a => a.house_id))
        ((phase1 day cfg.n_houses s).1.agents.map (fun a => a.house_id))
      ∧ st.agents.length = (phase1 day cfg.n_houses s).1.agents.length)
    (visitOne cfg day (host_by_house (phase1 day cfg.n_houses s).1.agents))
    (phase1 day cfg.n_houses s).2 (phase1 day cfg.n_houses s).1
    ⟨List.Perm.refl _, List.Perm.refl _, rfl⟩ ?_
  · constructor
    · rw [(phase6_frame cfg day _).1,
        foldl_preserve (fun st : SimState => st.agents.map (fun a => a.pet))
          (newTripOne cfg day) (fun st x => (newTripOne_frame cfg day st x).2.2.1) _ _,
        foldl_preserve (fun st : SimState => st.agents.map (fun a => a.pet))
          (returnOne day cfg.n_houses)
          (fun st x => (returnOne_frame day cfg.n_houses st x).2.2.2.1) _ _]
      exact H3.1.trans (hpet1 ▸ List.Perm.refl _)
    · rw [(phase6_frame cfg day _).1,
        foldl_preserve (fun st : SimState => st.agents.map (fun a => a.house_id))
          (newTripOne cfg day) (fun st x => (newTripOne_frame cfg day st x).2.2.2.1) _ _,
        foldl_preserve (fun st : SimState => st.agents.map (fun a => a.house_id))
          (returnOne day cfg.n_houses)
          (fun st x => (returnOne_frame day cfg.n_houses st x).2.2.2.2.1) _ _]
      exact H3.2.1.trans (hhouse1 ▸ List.Perm.refl _)
  · intro st x hx hst
    have hxlt : x < st.agents.length := by
      rw [hst.2.2, hlen1]
      exact harr x hx
    have hc := visitOne_conserve cfg day (phase1 day cfg.n_houses s).1.agents hIdx1 st x hxlt
      (hst.2.2)
    exact ⟨hc.1.trans hst.1, hc.2.1.trans hst.2.1, hc.2.2.2.trans hst.2.2⟩

/-! ### C5: exchange conservation -/

/-- C5: one full day of the loop preserves the multiset of pet values and the
multiset of home-house ids over the whole population (for any state whose
agent indices match their list positions, which `build_agents` guarantees and
the loop preserves): pet and house exchanges are swaps between the two
participants, and no other phase writes either field. -/
theorem c5_conservation (cfg : SimCfg) (day : ℕ) (s : SimState) (hIdx : IdxOk s.agents) :
    ((day_step cfg day s).agents.map (fun a => a.pet) : Multiset String)
      = (s.agents.map (fun a => a.pet) : Multiset String)
    ∧ ((day_step cfg day s).agents.map (fun a => a.house_id) : Multiset ℤ)
      = (s.agents.map (fun a => a.house_id) : Multiset ℤ) :=
  ⟨Multiset.coe_eq_coe.mpr (day_step_conserve cfg day s hIdx).1,
    Multiset.coe_eq_coe.mpr (day_step_conserve cfg day s hIdx).2⟩

/-- The configuration of the C5 witness run. -/
def c5Cfg : SimCfg := ⟨"none", 0, 2, ⟨["d0", "d1"], ["s0", "s1"], ["p0", "p1"]⟩, false, 0⟩

/-- The state of the C5 witness run: a traveler about to arrive at an occupied
house, with both house-exchange coins set to agree. -/
def c5S : SimState :=
  ⟨[⟨"a0", 0, 1, 1, "d0", "s0", "p0", ⟨1, 0, 0, 1, 0⟩, ⟨true, 1, 2, 1, 1⟩⟩,
    ⟨"a1", 1, 2, 2, "d1", "s1", "p1", ⟨0, 0, 1, 1, 0⟩, ⟨false, 2, 2, 0, 0⟩⟩],
   [], ⟨[1, 1, 1, 0], []⟩, 1, [], []⟩

/-- C5 witness: conservation on a concrete two-agent day in which a house
exchange actually fires. -/
theorem c5_conservation_witness :
    ((day_step c5Cfg 2 c5S).agents.map (fun a => a.pet) : Multiset String)
      = (c5S.agents.map (fun a => a.pet) : Multiset String) :=
  (c5_conservation c5Cfg 2 c5S (by unfold IdxOk; decide)).1

theorem learn_phase_untouched (cfg : SimCfg) (s : SimState) (v h i : ℕ)
    (hiv : i ≠ v) (hih : i ≠ h) :
    (learn_phase cfg s v h).agents.getD i dAgent = s.agents.getD i dAgent
    ∧ (learn_phase cfg s v h).beliefs.getD i dBelief = s.beliefs.getD i dBelief := by
  refine ⟨by rw [(learn_phase_frame cfg s v h).1], ?_⟩
  unfold learn_phase
  dsimp only
  split
  · rw [getD_set_ne _ _ _ _ _ hih, getD_set_ne _ _ _ _ _ hiv,
      getD_set_ne _ _ _ _ _ hih, getD_set_ne _ _ _ _ _ hiv]
  · rw [getD_set_ne _ _ _ _ _ hih, getD_set_ne _ _ _ _ _ hiv]

theorem pet_exchange_untouched (day : ℕ) (s : SimState) (v h i : ℕ)
    (hiv : i ≠ v) (hih : i ≠ h) :
    (pet_exchange day s v h).agents.getD i dAgent = s.agents.getD i dAgent
    ∧ (pet_exchange day s v h).beliefs.getD i dBelief = s.beliefs.getD i dBelief := by
  unfold pet_exchange
  dsimp only
  constructor <;>
    (split <;> split <;>
      first
        | rfl
        | rw [getD_set_ne _ _ _ _ _ hih, getD_set_ne _ _ _ _ _ hiv])

theorem house_exchange_untouched (day : ℕ) (s : SimState) (v h i : ℕ)
    (hiv : i ≠ v) (hih : i ≠ h) :
    (house_exchange day s v h).agents.getD i dAgent = s.agents.getD i dAgent
    ∧ (house_exchange day s v h).beliefs.getD i dBelief = s.beliefs.getD i dBelief := by
  unfold house_exchange
  dsimp only
  constructor <;>
    (split <;> split <;>
      first
        | rfl
        | rw [getD_set_ne _ _ _ _ _ hih, getD_set_ne _ _ _ _ _ hiv])

theorem visitOne_untouched (cfg : SimCfg) (day : ℕ) (hosts : ℤ → Option ℕ) (s : SimState)
    (v i : ℕ) (hiv : i ≠ v)
    (hhosts : ∀ j, hosts (s.agents.getD v dAgent).location = some j → i ≠ j) :
    (visitOne cfg day hosts s v).agents.getD i dAgent = s.agents.getD i dAgent
    ∧ (visitOne cfg day hosts s v).beliefs.getD i dBelief = s.beliefs.getD i dBelief := by
  unfold visitOne
  dsimp only
  cases hh : hosts (s.agents.getD v dAgent).location with
  | none => exact ⟨rfl, rfl⟩
  | some j =>
    dsimp only
    split
    · exact ⟨rfl, rfl⟩
    · have hij : i ≠ j := hhosts j hh
      have h1 := learn_phase_untouched cfg s v j i hiv hij
      have h2 := pet_exchange_untouched day (learn_phase cfg s v j) v j i hiv hij
      have h3 := house_exchange_untouched day
        (pet_exchange day (learn_phase cfg s v j) v j) v j i hiv hij
      exact ⟨(h3.1.trans h2.1).trans h1.1, (h3.2.trans h2.2).trans h1.2⟩

theorem finishOne_untouched (day : ℕ) (nH : ℤ) (sa : SimState × List ℕ) (k i : ℕ)
    (hik : i ≠ k) :
    (finishOne day nH sa k).1.agents.getD i dAgent = sa.1.agents.getD i dAgent := by
  unfold finishOne
  dsimp only
  split
  · rfl
  · split
    · rw [getD_set_ne _ _ _ _ _ hik]
    · split
      · rw [getD_set_ne _ _ _ _ _ hik]
      · rw [getD_set_ne _ _ _ _ _ hik]

theorem finishOne_inactive (day : ℕ) (nH : ℤ) (sa : SimState × List ℕ) (k : ℕ)
    (ha : (sa.1.agents.getD k dAgent).trip.active = false) :
    finishOne day nH sa k = sa := by
  unfold finishOne
  dsimp only
  rw [if_pos ha]

theorem returnOne_untouched (day : ℕ) (nH : ℤ) (s : SimState) (v i : ℕ) (hiv : i ≠ v) :
    (returnOne day nH s v).agents.getD i dAgent = s.agents.getD i dAgent := by
  unfold returnOne
  dsimp only
  split
  · rfl
  · split
    · rfl
    · rw [getD_set_ne _ _ _ _ _ hiv]

theorem newTripOne_untouched (cfg : SimCfg) (day : ℕ) (s : SimState) (k i : ℕ) (hik : i ≠ k) :
    (newTripOne cfg day s k).agents.getD i dAgent = s.agents.getD i dAgent := by
  unfold newTripOne
  dsimp only
  split
  · rfl
  · split
    · rfl
    · split
      · rfl
      · rw [getD_set_ne _ _ _ _ _ hik]

theorem newTripOne_skip (cfg : SimCfg) (day : ℕ) (s : SimState) (k : ℕ)
    (ha : (s.agents.getD k dAgent).trip.active = false)
    (hl : ¬ (s.agents.getD k dAgent).location = (s.agents.getD k dAgent).house_id) :
    newTripOne cfg day s k = s := by
  unfold newTripOne
  dsimp only
  rw [if_neg (by rw [ha]; exact Bool.false_ne_true), if_pos hl]

theorem phase1_frozen (day : ℕ) (nH : ℤ) (s : SimState) (i : ℕ) (hIdx : IdxOk s.agents)
    (hact : (s.agents.getD i dAgent).trip.active = false) :
    (phase1 day nH s).1.agents.getD i dAgent = s.agents.getD i dAgent
    ∧ i ∉ (phase1 day nH s).2 := by
  unfold phase1
  have H := foldl_pred (fun p : SimState × List ℕ =>
      p.1.agents.getD i dAgent = s.agents.getD i dAgent
      ∧ i ∉ p.2
      ∧ p.1.agents.length = s.agents.length
      ∧ p.1.agents.map (fun a => a.idx) = s.agents.map (fun a => a.idx))
    (finishOne day nH) (List.range s.agents.length) (s, [])
    ⟨rfl, by simp, rfl, rfl⟩ ?_
  · exact ⟨H.1, H.2.1⟩
  · intro st k hk hst
    by_cases hik : i = k
    · rw [finishOne_inactive day nH st k (by rw [← hik, hst.1]; exact hact)]
      exact hst
    · have hf := finishOne_frame day nH st k
      refine ⟨(finishOne_untouched day nH st k i hik).trans hst.1, ?_,
        hf.2.2.2.2.2.2.trans hst.2.2.1, hf.2.2.2.2.2.1.trans hst.2.2.2⟩
      rcases finishOne_arrived day nH st k with harr | harr
      · rw [harr]
        exact hst.2.1
      · rw [harr]
        intro hmem
        rcases List.mem_append.mp hmem with hm1 | hm2
        · exact hst.2.1 hm1
        · have hIdxSt : IdxOk st.1.agents := IdxOk_transfer hst.2.2.1 hst.2.2.2 hIdx
          have hklt : k < st.1.agents.length := by
            rw [hst.2.2.1]
            exact List.mem_range.mp hk
          have him : i = (st.1.agents.getD k dAgent).idx := by simpa using hm2
          exact hik (him.trans (hIdxSt k hklt))

theorem day_step_idx (cfg : SimCfg) (day : ℕ) (s : SimState) (hIdx : IdxOk s.agents) :
    (day_step cfg day s).agents.map (fun a => a.idx) = s.agents.map (fun a => a.idx)
    ∧ (day_step cfg day s).agents.length = s.agents.length := by
  obtain ⟨hlen1, hidx1, _, _, harr⟩ := phase1_spec day cfg.n_houses s hIdx
  have hIdx1 := IdxOk_transfer hlen1 hidx1 hIdx
  unfold day_step
  dsimp only
  have H3 := foldl_pred (fun st : SimState =>
      st.agents.map (fun a => a.idx) = (phase1 day cfg.n_houses s).1.agents.map (fun a => a.idx)
      ∧ st.agents.length = (phase1 day cfg.n_houses s).1.agents.length)
    (visitOne cfg day (host_by_house (phase1 day cfg.n_houses s).1.agents))
    (phase1 day cfg.n_houses s).2 (phase1 day cfg.n_houses s).1 ⟨rfl, rfl⟩ ?_
  · constructor
    · rw [(phase6_frame cfg day _).1,
        foldl_preserve (fun st : SimState => st.agents.map (fun a => a.idx)) (newTripOne cfg day)
          (fun st x => (newTripOne_frame cfg day st x).2.2.2.2.1) _ _,
        foldl_preserve (fun st : SimState => st.agents.map (fun a => a.idx))
          (returnOne day cfg.n_houses)
          (fun st x => (returnOne_frame day cfg.n_houses st x).2.2.2.2.2.1) _ _,
        H3.1, hidx1]
    · rw [(phase6_frame cfg day _).1,
        foldl_preserve (fun st : SimState => st.agents.length) (newTripOne cfg day)
          (fun st x => (newTripOne_frame cfg day st x).2.2.2.2.2) _ _,
        foldl_preserve (fun st : SimState => st.agents.length) (returnOne day cfg.n_houses)
          (fun st x => (returnOne_frame day cfg.n_houses st x).2.2.2.2.2.2) _ _,
        H3.2, hlen1]
  · intro st x hx hst
    have hxlt : x < st.agents.length := by
      rw [hst.2, hlen1]
      exact harr x hx
    have hc := visitOne_conserve cfg day (phase1 day cfg.n_houses s).1.agents hIdx1 st x hxlt
      hst.2
    exact ⟨hc.2.2.1.trans hst.1, hc.2.2.2.trans hst.2⟩

theorem day_step_frozen (cfg : SimCfg) (day : ℕ) (s : SimState) (i : ℕ)
    (hIdx : IdxOk s.agents)
    (hact : (s.agents.getD i dAgent).trip.active = false)
    (hloc : ¬ (s.agents.getD i dAgent).location = (s.agents.getD i dAgent).house_id) :
    (day_step cfg day s).agents.getD i dAgent = s.agents.getD i dAgent
    ∧ (day_step cfg day s).beliefs.getD i dBelief = s.beliefs.getD i dBelief := by
  obtain ⟨hfroz, hnotarr⟩ := phase1_frozen day cfg.n_houses s i hIdx hact
  obtain ⟨hlen1, hidx1, _, _, harr⟩ := phase1_spec day cfg.n_houses s hIdx
  have hIdx1 := IdxOk_transfer hlen1 hidx1 hIdx
  have hhost_ne : ∀ hse j,
      host_by_house (phase1 day cfg.n_houses s).1.agents hse = some j → i ≠ j := by
    intro hse j hj hij
    have hp := host_by_house_spec _ hIdx1 hse j hj
    rw [← hij, hfroz] at hp
    exact hloc hp.2.2
  have step3 : ∀ st x, x ∈ (phase1 day cfg.n_houses s).2 →
      (st.agents.getD i dAgent = s.agents.getD i dAgent
        ∧ st.beliefs.getD i dBelief = s.beliefs.getD i dBelief) →
      ((visitOne cfg day (host_by_house (phase1 day cfg.n_houses s).1.agents) st x).agents.getD
          i dAgent = s.agents.getD i dAgent
        ∧ (visitOne cfg day (host_by_house (phase1 day cfg.n_houses s).1.agents)
            st x).beliefs.getD i dBelief = s.beliefs.getD i dBelief) := by
    intro st x hx hst
    have hix : i ≠ x := fun e => hnotarr (e ▸ hx)
    have hu := visitOne_untouched cfg day _ st x i hix (fun j hj => hhost_ne _ j hj)
    exact ⟨hu.1.trans hst.1, hu.2.trans hst.2⟩
  have step4 : ∀ st x, x ∈ (phase1 day cfg.n_houses s).2 →
      (st.agents.getD i dAgent = s.agents.getD i dAgent
        ∧ st.beliefs.getD i dBelief = s.beliefs.getD i dBelief) →
      ((returnOne day cfg.n_houses st x).agents.getD i dAgent = s.agents.getD i dAgent
        ∧ (returnOne day cfg.n_houses st x).beliefs.getD i dBelief
            = s.beliefs.getD i dBelief) := by
    intro st x hx hst
    have hix : i ≠ x := fun e => hnotarr (e ▸ hx)
    refine ⟨(returnOne_untouched day cfg.n_houses st x i hix).trans hst.1, ?_⟩
    rw [(returnOne_frame day cfg.n_houses st x).1]
    exact hst.2
  have step5 : ∀ (st : SimState) (k : ℕ), k ∈ List.range
        ((((phase1 day cfg.n_houses s).2.foldl (returnOne day cfg.n_houses)
          ((phase1 day cfg.n_houses s).2.foldl
            (visitOne cfg day (host_by_house (phase1 day cfg.n_houses s).1.agents))
            (phase1 day cfg.n_houses s).1))).agents.length) →
      (st.agents.getD i dAgent = s.agents.getD i dAgent
        ∧ st.beliefs.getD i dBelief = s.beliefs.getD i dBelief) →
      ((newTripOne cfg day st k).agents.getD i dAgent = s.agents.getD i dAgent
        ∧ (newTripOne cfg day st k).beliefs.getD i dBelief = s.beliefs.getD i dBelief) := by
    intro st k _ hst
    by_cases hik : i = k
    · rw [newTripOne_skip cfg day st k (by rw [← hik, hst.1]; exact hact)
        (by rw [← hik, hst.1]; exact hloc)]
      exact hst
    · refine ⟨(newTripOne_untouched cfg day st k i hik).trans hst.1, ?_⟩
      rw [(newTripOne_frame cfg day st k).1]
      exact hst.2
  unfold day_step
  dsimp only
  rw [(phase6_frame cfg day _).1, (phase6_frame cfg day _).2.1]
  exact foldl_pred (fun st : SimState =>
      st.agents.getD i dAgent = s.agents.getD i dAgent
      ∧ st.beliefs.getD i dBelief = s.beliefs.getD i dBelief)
    (newTripOne cfg day) _ _
    (foldl_pred (fun st : SimState =>
        st.agents.getD i dAgent = s.agents.getD i dAgent
        ∧ st.beliefs.getD i dBelief = s.beliefs.getD i dBelief)
      (returnOne day cfg.n_houses) _ _
      (foldl_pred (fun st : SimState =>
          st.agents.getD i dAgent = s.agents.getD i dAgent
          ∧ st.beliefs.getD i dBelief = s.beliefs.getD i dBelief)
        (visitOne cfg day (host_by_house (phase1 day cfg.n_houses s).1.agents)) _ _
        ⟨hfroz, by rw [phase1_beliefs]⟩ step3)
      step4)
    step5

/-! ### C10: a stranded agent is frozen forever -/

/-- C10: once an agent is stationary with its location different from its home
house (as a host becomes after a `changeHouse` exchange), then over any
further sequence of simulated days its entire agent record (trip, location,
house, pet, everything) and its belief store stay exactly as they are: it
never starts a trip, never moves, never exchanges, and never takes part in an
interaction again. -/
theorem c10_frozen (cfg : SimCfg) (ds : List ℕ) (s : SimState) (i : ℕ)
    (hIdx : IdxOk s.agents) (hi : i < s.agents.length)
    (hact : (s.agents.getD i dAgent).trip.active = false)
    (hloc : ¬ (s.agents.getD i dAgent).location = (s.agents.getD i dAgent).house_id) :
    (run_from cfg ds s).agents.getD i dAgent = s.agents.getD i dAgent
    ∧ (run_from cfg ds s).beliefs.getD i dBelief = s.beliefs.getD i dBelief := by
  induction ds generalizing s with
  | nil => exact ⟨rfl, rfl⟩
  | cons d rest ih =>
    have hfz := day_step_frozen cfg d s i hIdx hact hloc
    have hdx := day_step_idx cfg d s hIdx
    have hIdx2 : IdxOk (day_step cfg d s).agents := IdxOk_transfer hdx.2 hdx.1 hIdx
    have hi2 : i < (day_step cfg d s).agents.length := by
      rw [hdx.2]
      exact hi
    have hact2 : ((day_step cfg d s).agents.getD i dAgent).trip.active = false := by
      rw [hfz.1]
      exact hact
    have hloc2 : ¬ ((day_step cfg d s).agents.getD i dAgent).location
        = ((day_step cfg d s).agents.getD i dAgent).house_id := by
      rw [hfz.1]
      exact hloc
    have hrest := ih (day_step cfg d s) hIdx2 hi2 hact2 hloc2
    exact ⟨hrest.1.trans hfz.1, hrest.2.trans hfz.2⟩

/-- The state of the C10 witness: one stationary agent away from its home. -/
def c10S : SimState :=
  ⟨[⟨"a0", 0, 1, 2, "d0", "s0", "p0", ⟨0, 0, 1, 0, 0⟩, ⟨false, 2, 2, 0, 0⟩⟩],
   [], ⟨[], []⟩, 0, [], []⟩

/-- C10 witness: the frozen agent is untouched over three concrete days. -/
theorem c10_frozen_witness :
    (run_from ⟨"meet", 0, 6, ⟨[], [], []⟩, false, 0⟩ [1, 2, 3] c10S).agents.getD 0 dAgent
      = c10S.agents.getD 0 dAgent :=
  (c10_frozen ⟨"meet", 0, 6, ⟨[], [], []⟩, false, 0⟩ [1, 2, 3] c10S 0
    (by unfold IdxOk; decide) (by decide) (by decide) (by decide)).1

/-! ### C7: travel durations of the canonical 6-house topology -/

/-- C7 counterexample: the claim asserts the existence of a house pair with
asymmetric travel durations on the canonical 6-house topology; in fact the
`right`/`left` tables are mutually inverse (`right[h] = left[h+1]` for every
`h`), so no such pair exists. -/
theorem c7_counterexample :
    ¬ ∃ a ∈ Finset.Icc (1 : ℤ) 6, ∃ b ∈ Finset.Icc (1 : ℤ) 6,
      travel_days a b 6 ≠ travel_days b a 6 := by decide

/-- C7 amended: for the canonical 6-house topology, `travel_days` is
house-pair-specific (adjacent pairs cost 1, 2 or 3 days while non-adjacent
pairs cost 1) but symmetric: swapping the two houses never changes the
duration. -/
theorem c7_amended :
    (∀ a ∈ Finset.Icc (1 : ℤ) 6, ∀ b ∈ Finset.Icc (1 : ℤ) 6,
      travel_days a b 6 = travel_days b a 6)
    ∧ travel_days 1 2 6 = 2 ∧ travel_days 1 3 6 = 1 ∧ travel_days 6 1 6 = 3 := by decide

/-- C7 witness: the amended symmetry statement applied to the pair (1, 2). -/
theorem c7_amended_witness : travel_days 1 2 6 = travel_days 2 1 6 :=
  c7_amended.1 1 (by decide) 2 (by decide)

/-! ### C3: determinism of `run_sim` -/

/-- C3: for a fixed configuration (agents, day count, random source, sharing
mode, noise, house count, domains, SA settings), two executions of the
embedded `run_sim` produce identical event-log rows and identical per-day
metrics rows. -/
theorem c3_determinism (a b : RunArgs)
    (h1 : a.agents = b.agents) (h2 : a.days = b.days) (h3 : a.rng = b.rng)
    (h4 : a.share_mode = b.share_mode) (h5 : a.noise = b.noise)
    (h6 : a.n_houses = b.n_houses) (h7 : a.domains = b.domains)
    (h8 : a.sa_flag = b.sa_flag) (h9 : a.sa_sample = b.sa_sample) :
    run_sim a = run_sim b := by
  cases a
  cases b
  simp only at h1 h2 h3 h4 h5 h6 h7 h8 h9
  subst h1 h2 h3 h4 h5 h6 h7 h8 h9
  rfl

/-- C3 witness: two runs of a small concrete configuration coincide. -/
theorem c3_determinism_witness :
    run_sim ⟨[dAgent], 1, ⟨[], []⟩, "meet", 0, 6, ⟨[], [], []⟩, true, 0⟩ =
      run_sim ⟨[dAgent], 1, ⟨[], []⟩, "meet", 0, 6, ⟨[], [], []⟩, true, 0⟩ :=
  c3_determinism _ _ rfl rfl rfl rfl rfl rfl rfl rfl rfl

/-! ### C1: the denominator of `sa_m1_true` -/

theorem count_true_eq {V : Type _} [DecidableEq V] (m : BMap V) (truth : ℕ → V) (n : ℕ) :
    count_true m truth n = ((Finset.range n).filter (fun j => m j = some (truth j))).card := by
  induction n with
  | zero => rfl
  | succ k ih =>
    unfold count_true at ih ⊢
    rw [List.range_succ, List.filter_append, List.length_append, ih, Finset.range_succ,
      Finset.filter_insert]
    by_cases hp : m k = some (truth k)
    · rw [if_pos hp, Finset.card_insert_of_not_mem (by simp)]
      simp [hp]
    · rw [if_neg hp]
      simp [hp]

/-- A two-agent population for the C1 counterexample. -/
def c1Agents : List Agent :=
  [⟨"a0", 0, 1, 1, "da", "sa", "pa", default_strategy, ⟨false, 1, 1, 0, 0⟩⟩,
   ⟨"a1", 1, 2, 2, "db", "sb", "pb", default_strategy, ⟨false, 2, 2, 0, 0⟩⟩]

/-- The initial belief store of agent 0 of `c1Agents`: four known facts, all
matching ground truth. -/
def c1B : Belief := self_belief (c1Agents.getD 0 dAgent)

/-- C1 counterexample: on a belief store with 4 known facts (all correct) in a
2-agent population, `sa_m1_true` returns 4/8 = 1/2, while the fraction of
*known* facts matching ground truth is 1 — so the code divides by the total
fact count `4*n`, not by the number of entries present. -/
theorem c1_counterexample :
    sa_m1_true c1B c1Agents 2 = 1 / 2
    ∧ count_true c1B.houses (fun j => (c1Agents.getD j dAgent).house_id) 2
        + count_true c1B.drinks (fun j => (c1Agents.getD j dAgent).drink) 2
        + count_true c1B.smokes (fun j => (c1Agents.getD j dAgent).smokes) 2
        + count_true c1B.pets (fun j => (c1Agents.getD j dAgent).pet) 2 = 4
    ∧ bsize 2 c1B.houses + bsize 2 c1B.drinks + bsize 2 c1B.smokes + bsize 2 c1B.pets = 4
    ∧ (4 : ℚ) / 4 = 1 := by
  have hh : count_true c1B.houses (fun j => (c1Agents.getD j dAgent).house_id) 2 = 1 := by decide
  have hd : count_true c1B.drinks (fun j => (c1Agents.getD j dAgent).drink) 2 = 1 := by decide
  have hs : count_true c1B.smokes (fun j => (c1Agents.getD j dAgent).smokes) 2 = 1 := by decide
  have hp : count_true c1B.pets (fun j => (c1Agents.getD j dAgent).pet) 2 = 1 := by decide
  refine ⟨?_, by rw [hh, hd, hs, hp], by decide, by norm_num⟩
  simp only [sa_m1_true, hh, hd, hs, hp]
  norm_num

/-- C1 amended: `sa_m1_true` equals the number of recorded facts matching
ground truth divided by the total fact count `4*n` (absent facts counting as
mismatches), not by the number of entries present. -/
theorem c1_amended (b : Belief) (agents : List Agent) (n : ℕ) (hn : 0 < n) :
    sa_m1_true b agents n =
      ((((Finset.range n).filter (fun j => b.houses j = some (agents.getD j dAgent).house_id)).card
        + ((Finset.range n).filter (fun j => b.drinks j = some (agents.getD j dAgent).drink)).card
        + ((Finset.range n).filter (fun j => b.smokes j = some (agents.getD j dAgent).smokes)).card
        + ((Finset.range n).filter (fun j => b.pets j = some (agents.getD j dAgent).pet)).card : ℕ) : ℚ)
        / (4 * (n : ℚ)) := by
  have hq : (0 : ℚ) < 4 * (n : ℚ) := by
    have hn' : (0 : ℚ) < (n : ℚ) := by exact_mod_cast hn
    linarith
  simp only [sa_m1_true, count_true_eq]
  rw [if_pos hq]

/-- C1 witness: the amended statement at the counterexample input. -/
theorem c1_amended_witness :
    sa_m1_true c1B c1Agents 2 =
      ((((Finset.range 2).filter (fun j => c1B.houses j = some ((c1Agents.getD j dAgent).house_id))).card
        + ((Finset.range 2).filter (fun j => c1B.drinks j = some ((c1Agents.getD j dAgent).drink))).card
        + ((Finset.range 2).filter (fun j => c1B.smokes j = some ((c1Agents.getD j dAgent).smokes))).card
        + ((Finset.range 2).filter (fun j => c1B.pets j = some ((c1Agents.getD j dAgent).pet))).card : ℕ) : ℚ)
        / (4 * (2 : ℚ)) :=
  c1_amended c1B c1Agents 2 (by decide)

/-! ### C9: missing versus malformed instance files in `build_agents` -/

/-- A present but malformed fixed-instance file: the header has no `H` column. -/
def c9BadInit : CsvFile := ⟨[["X"], ["1"]]⟩

/-- A strategy file used alongside the malformed instance file. -/
def c9Strat : CsvFile := ⟨[["I"], ["x"]]⟩

/-- C9 counterexample: with a present but malformed instance file,
`build_agents` raises (a `KeyError` from `csv.DictReader` row access) rather
than returning the synthetic fallback population — so "for any instance-file
content" the claim fails. -/
theorem c9_counterexample :
    build_agents 6 6 1 (some c9BadInit) (some c9Strat) = Except.error "KeyError" := by
  rfl

/-- C9 amended: a *missing* instance file is not an error: `build_agents`
returns the synthetic fallback population (house `i % H + 1`, cycled attribute
values, equal-thirds/zero-exchange strategy, no active trip) without raising;
a present but malformed file instead raises (see the counterexample). -/
theorem c9_amended (n : ℕ) (houses : ℤ) (seed : ℕ) (fs : Option CsvFile) :
    build_agents n houses seed none fs
      = Except.ok (synthetic_agents n houses, synthetic_domains, houses)
    ∧ (synthetic_agents n houses).length = n
    ∧ ∀ i, i < n →
        ((synthetic_agents n houses).getD i dAgent).house_id = ((i : ℤ) % houses) + 1
        ∧ ((synthetic_agents n houses).getD i dAgent).location = ((i : ℤ) % houses) + 1
        ∧ ((synthetic_agents n houses).getD i dAgent).drink
            = synthetic_domains.drinks.getD (i % 6) ""
        ∧ ((synthetic_agents n houses).getD i dAgent).strategy = default_strategy
        ∧ ((synthetic_agents n houses).getD i dAgent).trip.active = false := by
  refine ⟨by cases fs <;> rfl, by simp [synthetic_agents], ?_⟩
  intro i hi
  unfold synthetic_agents
  rw [getD_map_lt _ _ _ (by simpa using hi) 0 dAgent, getD_range n i 0 hi]
  exact ⟨rfl, rfl, rfl, rfl, rfl⟩

/-! ### C2: trip completion and the host test -/

/-- A lone traveler returning to its own home house (trip 2 → 1 completing on
day 1) in a population with no other agent. -/
def c2Visitor : Agent :=
  ⟨"a0", 0, 1, 2, "d", "s", "p", ⟨0, 0, 1, 0, 0⟩, ⟨true, 2, 1, 1, 0⟩⟩

/-- C2 counterexample: the claim requires a host to be some OTHER agent, so a
lone traveler arriving at its own home should fail to arrive and bounce back;
in fact the host scan runs over the agent list after the traveler's own
location is set to the destination and its trip deactivated, so the traveler
counts as its own host: the log shows a single successful `FinishTrip` (result
field 1) and no bounce `startTrip`. -/
theorem c2_counterexample :
    run_sim ⟨[c2Visitor], 1, ⟨[9/10], []⟩, "none", 0, 6, ⟨[], [], []⟩, false, 0⟩
      = ([[LogCell.int 1, LogCell.int 1, LogCell.str "FinishTrip", LogCell.int 0,
          LogCell.str "a0", LogCell.int 1, LogCell.str "", LogCell.str "",
          LogCell.str "", LogCell.str ""]], []) := by with_unfolding_all rfl

/-- The in-place mutation applied to a completing traveler before the host
scan: location set to the destination, trip deactivated, `days_left`
decremented. -/
def arrival_update (a : Agent) : Agent :=
  { a with location := a.trip.to_house
           trip := { a.trip with active := false, days_left := a.trip.days_left - 1 } }

/-- C2 amended: when the trip of the agent at position `k` completes, the
traveler arrives successfully (is appended to `arrived_today` and left
stationary at the destination) if and only if some currently-non-traveling
agent of the *post-arrival* list — possibly the traveler itself, when the
destination is its own home — has its home house and current location equal to
the destination; otherwise it immediately starts a new trip from the failed
destination back to its own home with duration `travel_days(destination,
home)`. -/
theorem c2_amended (day : ℕ) (nH : ℤ) (s : SimState) (arr : List ℕ) (k : ℕ)
    (hk : k < s.agents.length)
    (ha : (s.agents.getD k dAgent).trip.active = true)
    (hd : (s.agents.getD k dAgent).trip.days_left ≤ 1) :
    ((∃ x ∈ s.agents.set k (arrival_update (s.agents.getD k dAgent)),
        x.trip.active = false ∧ x.house_id = (s.agents.getD k dAgent).trip.to_house
        ∧ x.location = (s.agents.getD k dAgent).trip.to_house) →
      (finishOne day nH (s, arr) k).2 = arr ++ [(s.agents.getD k dAgent).idx]
      ∧ ((finishOne day nH (s, arr) k).1.agents.getD k dAgent).trip.active = false
      ∧ ((finishOne day nH (s, arr) k).1.agents.getD k dAgent).location
          = (s.agents.getD k dAgent).trip.to_house)
    ∧ ((¬ ∃ x ∈ s.agents.set k (arrival_update (s.agents.getD k dAgent)),
        x.trip.active = false ∧ x.house_id = (s.agents.getD k dAgent).trip.to_house
        ∧ x.location = (s.agents.getD k dAgent).trip.to_house) →
      (finishOne day nH (s, arr) k).2 = arr
      ∧ ((finishOne day nH (s, arr) k).1.agents.getD k dAgent).trip
          = ⟨true, (s.agents.getD k dAgent).trip.to_house,
              (s.agents.getD k dAgent).house_id,
              travel_days (s.agents.getD k dAgent).trip.to_house
                (s.agents.getD k dAgent).house_id nH,
              s.event_id + 1 + 1⟩) := by
  have hdl : ¬ (0 < (s.agents.getD k dAgent).trip.days_left - 1) := by omega
  constructor
  · intro hex
    have hhost : host_scan (s.agents.set k (arrival_update (s.agents.getD k dAgent)))
        (s.agents.getD k dAgent).trip.to_house = true := by
      rw [host_scan, List.any_eq_true]
      rcases hex with ⟨x, hx, h1, h2, h3⟩
      exact ⟨x, hx, by simp [h1, h2, h3]⟩
    simp only [arrival_update] at hhost
    simp only [finishOne, ha, Bool.true_eq_false, if_false, if_neg hdl, hhost, if_true]
    refine ⟨trivial, ?_, ?_⟩ <;> rw [getD_set_self _ _ _ _ hk]
  · intro hex
    have hhost : host_scan (s.agents.set k (arrival_update (s.agents.getD k dAgent)))
        (s.agents.getD k dAgent).trip.to_house = false := by
      rw [← Bool.not_eq_true, host_scan, List.any_eq_true]
      intro hc
      rcases hc with ⟨x, hx, hp⟩
      simp only [Bool.and_eq_true, Bool.not_eq_true', decide_eq_true_eq] at hp
      exact hex ⟨x, hx, hp.1.1, hp.1.2, hp.2⟩
    simp only [arrival_update] at hhost
    simp only [finishOne, ha, Bool.true_eq_false, if_false, if_neg hdl, hhost,
      Bool.false_eq_true, if_false]
    refine ⟨trivial, ?_⟩
    rw [getD_set_self _ _ _ _ hk]

/-- C2 witness: the amended statement at the lone returning traveler, which is
its own host. -/
theorem c2_amended_witness :
    (finishOne 1 6 (⟨⟨[c2Visitor], [], ⟨[], []⟩, 0, [], []⟩, []⟩) 0).2
        = [] ++ [(([c2Visitor] : List Agent).getD 0 dAgent).idx]
    ∧ (((finishOne 1 6 (⟨⟨[c2Visitor], [], ⟨[], []⟩, 0, [], []⟩, []⟩) 0).1.agents.getD 0 dAgent).trip.active
        = false)
    ∧ (((finishOne 1 6 (⟨⟨[c2Visitor], [], ⟨[], []⟩, 0, [], []⟩, []⟩) 0).1.agents.getD 0 dAgent).location
        = (([c2Visitor] : List Agent).getD 0 dAgent).trip.to_house) :=
  (c2_amended 1 6 ⟨[c2Visitor], [], ⟨[], []⟩, 0, [], []⟩ [] 0 (by decide) (by decide)
    (by decide)).1 (by decide)

/-! ### C4: new-trip sampling after a same-day completion -/

/-- Agent `a0` of the C4 counterexample: moves left with probability 1 and
always agrees to house exchanges. -/
def c4A0 : Agent :=
  ⟨"a0", 0, 1, 1, "d0", "s0", "p0", ⟨1, 0, 0, 1, 0⟩, ⟨false, 1, 1, 0, 0⟩⟩

/-- Agent `a1` of the C4 counterexample: stays home and always agrees to house
exchanges. -/
def c4A1 : Agent :=
  ⟨"a1", 1, 2, 2, "d1", "s1", "p1", ⟨0, 0, 1, 1, 0⟩, ⟨false, 2, 2, 0, 0⟩⟩

/-- C4 counterexample: agent `a0` travels 1 → 2 on day 1, completes the trip on
day 2 (`FinishTrip`, success), exchanges houses with the host (`changeHouse`,
making house 2 its home), and then — on the same day 2 — the phase-5 strategy
sampling starts a new trip for it (final `startTrip` of day 2, away from its
new home), because the phase-5 loop never checks whether an agent completed a
trip earlier that day. -/
theorem c4_counterexample :
    run_sim ⟨[c4A0, c4A1], 2, ⟨[0, 9/10, 1/2, 3/10, 3/10, 0], []⟩, "none", 0, 2,
        ⟨["d0", "d1"], ["s0", "s1"], ["p0", "p1"]⟩, false, 0⟩
      = ([[LogCell.int 1, LogCell.int 1, LogCell.str "startTrip", LogCell.str "a0",
           LogCell.int 1, LogCell.int 2, LogCell.int 1, LogCell.str "", LogCell.str "",
           LogCell.str ""],
          [LogCell.int 2, LogCell.int 2, LogCell.str "FinishTrip", LogCell.int 1,
           LogCell.str "a0", LogCell.int 1, LogCell.str "", LogCell.str "",
           LogCell.str "", LogCell.str ""],
          [LogCell.int 3, LogCell.int 2, LogCell.str "changeHouse", LogCell.str "a0",
           LogCell.str "a1", LogCell.int 1, LogCell.int 2, LogCell.int 2, LogCell.int 1,
           LogCell.str ""],
          [LogCell.int 4, LogCell.int 2, LogCell.str "startTrip", LogCell.str "a0",
           LogCell.int 2, LogCell.int 1, LogCell.int 1, LogCell.str "", LogCell.str "",
           LogCell.str ""]], []) := by with_unfolding_all rfl

/-- C4 amended: the phase-5 new-trip sampling applies to every agent that is
stationary and currently located at its own home house when phase 5 reaches it
— with no exclusion of agents that completed a trip earlier the same day (the
counterexample shows such an agent sampling a new trip on its completion day):
the strategy draw is consumed, and unless it says "home" a new trip to the
sampled neighbor starts. -/
theorem c4_amended (cfg : SimCfg) (day : ℕ) (s : SimState) (k : ℕ)
    (hk : k < s.agents.length)
    (hb : (s.agents.getD k dAgent).trip.active = false)
    (hl : (s.agents.getD k dAgent).location = (s.agents.getD k dAgent).house_id) :
    ((sample_direction (s.agents.getD k dAgent).strategy s.rng).1 = "home" →
      newTripOne cfg day s k
        = { s with rng := (sample_direction (s.agents.getD k dAgent).strategy s.rng).2 })
    ∧ ((sample_direction (s.agents.getD k dAgent).strategy s.rng).1 ≠ "home" →
      ((newTripOne cfg day s k).agents.getD k dAgent).trip
        = ⟨true, (s.agents.getD k dAgent).location,
            (if (sample_direction (s.agents.getD k dAgent).strategy s.rng).1 = "left"
             then neighbor_left (s.agents.getD k dAgent).location cfg.n_houses
             else neighbor_right (s.agents.getD k dAgent).location cfg.n_houses),
            travel_days (s.agents.getD k dAgent).location
              (if (sample_direction (s.agents.getD k dAgent).strategy s.rng).1 = "left"
               then neighbor_left (s.agents.getD k dAgent).location cfg.n_houses
               else neighbor_right (s.agents.getD k dAgent).location cfg.n_houses)
              cfg.n_houses,
            s.event_id + 1⟩
      ∧ (newTripOne cfg day s k).rng
          = (sample_direction (s.agents.getD k dAgent).strategy s.rng).2) := by
  constructor
  · intro hdir
    simp only [newTripOne, hb, Bool.false_eq_true, if_false, hl, eq_self_iff_true,
      not_true_eq_false, hdir, if_true]
  · intro hdir
    simp only [newTripOne, hb, Bool.false_eq_true, if_false, hl, eq_self_iff_true,
      not_true_eq_false, if_neg hdir]
    refine ⟨?_, trivial⟩
    rw [getD_set_self _ _ _ _ hk]

/-- C4 witness: the amended statement at a stationary at-home agent whose draw
says "left". -/
theorem c4_amended_witness :
    ((newTripOne ⟨"none", 0, 2, ⟨[], [], []⟩, false, 0⟩ 1
        ⟨[c4A0], [], ⟨[0], []⟩, 0, [], []⟩ 0).agents.getD 0 dAgent).trip
      = ⟨true, (([c4A0] : List Agent).getD 0 dAgent).location,
          (if (sample_direction (([c4A0] : List Agent).getD 0 dAgent).strategy ⟨[0], []⟩).1 = "left"
           then neighbor_left (([c4A0] : List Agent).getD 0 dAgent).location 2
           else neighbor_right (([c4A0] : List Agent).getD 0 dAgent).location 2),
          travel_days (([c4A0] : List Agent).getD 0 dAgent).location
            (if (sample_direction (([c4A0] : List Agent).getD 0 dAgent).strategy ⟨[0], []⟩).1 = "left"
             then neighbor_left (([c4A0] : List Agent).getD 0 dAgent).location 2
             else neighbor_right (([c4A0] : List Agent).getD 0 dAgent).location 2) 2,
          0 + 1⟩
    ∧ (newTripOne ⟨"none", 0, 2, ⟨[], [], []⟩, false, 0⟩ 1
        ⟨[c4A0], [], ⟨[0], []⟩, 0, [], []⟩ 0).rng
      = (sample_direction (([c4A0] : List Agent).getD 0 dAgent).strategy ⟨[0], []⟩).2 :=
  (c4_amended ⟨"none", 0, 2, ⟨[], [], []⟩, false, 0⟩ 1
    ⟨[c4A0], [], ⟨[0], []⟩, 0, [], []⟩ 0 (by decide) (by decide) (by decide)).2
    (by decide)

/-! ### C8: noisy observation in `learn_direct` -/

/-- Subject agent for the C8 counterexample. -/
def c8Subject : Agent :=
  ⟨"o", 0, 1, 0, "dx", "sx", "px", default_strategy, ⟨false, 0, 0, 0, 0⟩⟩

/-- Degenerate singleton domains equal to the subject's true values. -/
def c8Domains : Domains := ⟨["dx"], ["sx"], ["px"]⟩

/-- C8 counterexample: with `noise = 1`, every corruption coin is taken (the
four draws are all 0 < 1), yet with a single house (`n_houses = 1`) and
singleton domains the recorded values all equal the subject's true attribute
values — the corruption branch does not always record a different value. -/
theorem c8_counterexample :
    (noise_coin 1 ⟨[0, 0, 0, 0], []⟩).1 = true
    ∧ (noise_coin 1 ⟨[0, 0, 0], []⟩).1 = true
    ∧ (noise_coin 1 ⟨[0, 0], []⟩).1 = true
    ∧ (noise_coin 1 ⟨[0], []⟩).1 = true
    ∧ (learn_direct empty_belief c8Subject 1 c8Domains 1 ⟨[0, 0, 0, 0], []⟩).1.houses 0 = some 1
    ∧ (learn_direct empty_belief c8Subject 1 c8Domains 1 ⟨[0, 0, 0, 0], []⟩).1.drinks 0 = some "dx"
    ∧ (learn_direct empty_belief c8Subject 1 c8Domains 1 ⟨[0, 0, 0, 0], []⟩).1.smokes 0 = some "sx"
    ∧ (learn_direct empty_belief c8Subject 1 c8Domains 1 ⟨[0, 0, 0, 0], []⟩).1.pets 0 = some "px" := by
  refine ⟨rfl, rfl, rfl, rfl, rfl, rfl, rfl, rfl⟩

theorem reject_int_spec (n t : ℤ) (hn : 2 ≤ n) :
    ∀ l : List ℕ, (∃ d ∈ l, 1 + (d : ℤ) % n ≠ t) →
      (reject_int n t l).1 ≠ t ∧ 1 ≤ (reject_int n t l).1 ∧ (reject_int n t l).1 ≤ n := by
  intro l
  induction l with
  | nil => intro h; simp at h
  | cons d rest ih =>
    intro h
    by_cases hc : (1 + (d : ℤ) % n) = t
    · have hrest : ∃ x ∈ rest, 1 + (x : ℤ) % n ≠ t := by
        rcases h with ⟨x, hx, hne⟩
        rcases List.mem_cons.mp hx with hxd | hx'
        · exact absurd (hxd ▸ hc) hne
        · exact ⟨x, hx', hne⟩
      simpa only [reject_int, if_pos hc] using ih hrest
    · simp only [reject_int, if_neg hc]
      have h0 : 0 ≤ (d : ℤ) % n := Int.emod_nonneg _ (by omega)
      have h1 : (d : ℤ) % n < n := Int.emod_lt_of_pos _ (by omega)
      exact ⟨hc, by omega, by omega⟩

theorem reject_str_spec (vs : List String) (tv : String) (h2 : 2 ≤ vs.length) :
    ∀ l : List ℕ, (∃ d ∈ l, vs.getD (d % vs.length) "" ≠ tv) →
      (reject_str vs tv l).1 ≠ tv ∧ (reject_str vs tv l).1 ∈ vs := by
  intro l
  induction l with
  | nil => intro h; simp at h
  | cons d rest ih =>
    intro h
    by_cases hc : vs.getD (d % vs.length) "" = tv
    · have hrest : ∃ x ∈ rest, vs.getD (x % vs.length) "" ≠ tv := by
        rcases h with ⟨x, hx, hne⟩
        rcases List.mem_cons.mp hx with hxd | hx'
        · exact absurd (hxd ▸ hc) hne
        · exact ⟨x, hx', hne⟩
      simpa only [reject_str, if_pos hc] using ih hrest
    · simp only [reject_str, if_neg hc]
      refine ⟨hc, ?_⟩
      have hi : d % vs.length < vs.length := Nat.mod_lt _ (by omega)
      rw [List.getD_eq_getElem?_getD, List.getElem?_eq_getElem hi]
      exact List.getElem_mem hi

/-- C8 amended: when the corruption coin for an attribute is not taken (or
`noise ≤ 0`, in which case no draw even happens), the true value is recorded;
when it is taken, the recorded value is the output of the corresponding
`choose_other_value` rejection loop, which returns a value different from the
true one whenever the domain offers an alternative (`n ≥ 2` houses, resp. a
domain with at least two values) and the draw stream supplies one; in the
degenerate cases (`n ≤ 1`, an empty domain, or a singleton domain equal to the
true value) the true value is recorded even inside the corruption branch. -/
theorem c8_amended (b : Belief) (other : Agent) (nH : ℤ) (doms : Domains)
    (noise : ℚ) (r : Rng) (n t : ℤ) (vs : List String) (tv : String) :
    (noise ≤ 0 →
      (learn_direct b other nH doms noise r).1.houses other.idx = some other.house_id
      ∧ (learn_direct b other nH doms noise r).1.drinks other.idx = some other.drink
      ∧ (learn_direct b other nH doms noise r).1.smokes other.idx = some other.smokes
      ∧ (learn_direct b other nH doms noise r).1.pets other.idx = some other.pet)
    ∧ (0 < noise → noise ≤ r.floats.headD 0 →
        (learn_direct b other nH doms noise r).1.houses other.idx = some other.house_id)
    ∧ (0 < noise → r.floats.headD 0 < noise →
        (learn_direct b other nH doms noise r).1.houses other.idx
          = some (choose_other_value_int nH other.house_id
              { floats := r.floats.tail, ints := r.ints }).1)
    ∧ (2 ≤ n → (∃ d ∈ r.ints, 1 + (d : ℤ) % n ≠ t) →
        (choose_other_value_int n t r).1 ≠ t
        ∧ 1 ≤ (choose_other_value_int n t r).1 ∧ (choose_other_value_int n t r).1 ≤ n)
    ∧ (n ≤ 1 → (choose_other_value_int n t r).1 = t)
    ∧ (2 ≤ vs.length → (∃ d ∈ r.ints, vs.getD (d % vs.length) "" ≠ tv) →
        (choose_other_value_str vs tv r).1 ≠ tv ∧ (choose_other_value_str vs tv r).1 ∈ vs)
    ∧ (vs.length = 1 → (choose_other_value_str vs tv r).1 = vs.getD 0 "")
    ∧ (vs = [] → (choose_other_value_str vs tv r).1 = tv) := by
  refine ⟨?_, ?_, ?_, ?_, ?_, ?_, ?_, ?_⟩
  · intro h
    simp [learn_direct, noise_coin, not_lt.mpr h, bset]
  · intro h0 hle
    obtain ⟨fl, il⟩ := r
    cases fl with
    | nil =>
      simp only [List.headD_nil] at hle
      exact absurd (h0.trans_le hle) (lt_irrefl 0)
    | cons x xs =>
      simp only [List.headD_cons] at hle
      have hcoin1 : (noise_coin noise ⟨x :: xs, il⟩).1 = false := by
        simp [noise_coin, if_pos h0, next_float, not_lt.mpr hle]
      simp [learn_direct, hcoin1, bset]
  · intro h0 hlt
    obtain ⟨fl, il⟩ := r
    cases fl with
    | nil =>
      simp only [List.headD_nil] at hlt
      have hcoin1 : noise_coin noise ⟨[], il⟩ = (true, ⟨[], il⟩) := by
        simp [noise_coin, if_pos h0, next_float, hlt]
      simp [learn_direct, hcoin1, bset]
    | cons x xs =>
      simp only [List.headD_cons] at hlt
      have hcoin1 : noise_coin noise ⟨x :: xs, il⟩ = (true, ⟨xs, il⟩) := by
        simp [noise_coin, if_pos h0, next_float, hlt]
      simp [learn_direct, hcoin1, bset]
  · intro hn hex
    have hne : ¬ n ≤ 1 := by omega
    have h := reject_int_spec n t hn r.ints hex
    simpa only [choose_other_value_int, if_neg hne] using h
  · intro hn
    simp [choose_other_value_int, if_pos hn]
  · intro h2 hex
    have hne0 : ¬ vs.length = 0 := by omega
    have hne1 : ¬ vs.length = 1 := by omega
    have h := reject_str_spec vs tv h2 r.ints hex
    simpa only [choose_other_value_str, if_neg hne0, if_neg hne1] using h
  · intro h1
    have hne0 : ¬ vs.length = 0 := by omega
    simp [choose_other_value_str, hne0, h1]
  · intro h0
    subst h0
    simp [choose_other_value_str]

/-- C8 witness: the amended statement instantiated at concrete inputs — a
successful corruption of a house value and of a string value, and a
no-corruption call recording the true value. -/
theorem c8_amended_witness :
    (choose_other_value_int 6 3 ⟨[], [1]⟩).1 ≠ 3
    ∧ (choose_other_value_str ["sa", "sb"] "sa" ⟨[], [1]⟩).1 ≠ "sa"
    ∧ (learn_direct empty_belief c8Subject 1 c8Domains 0 ⟨[], []⟩).1.pets 0 = some "px" := by
  refine ⟨?_, ?_, ?_⟩
  · exact ((c8_amended empty_belief c8Subject 1 c8Domains 0 ⟨[], [1]⟩ 6 3 [] "").2.2.2.1
      (by norm_num) ⟨1, by decide, by decide⟩).1
  · exact ((c8_amended empty_belief c8Subject 1 c8Domains 0 ⟨[], [1]⟩ 6 3 ["sa", "sb"] "sa").2.2.2.2.2.1
      (by norm_num) ⟨1, by decide, by decide⟩).1
  · exact ((c8_amended empty_belief c8Subject 1 c8Domains 0 ⟨[], []⟩ 6 3 [] "").1 le_rfl).2.2.2

/-- C9 witness: the amended statement at a concrete small request. -/
theorem c9_amended_witness :
    build_agents 2 2 1 none none = Except.ok (synthetic_agents 2 2, synthetic_domains, 2)
    ∧ ((synthetic_agents 2 2).getD 1 dAgent).house_id = 2 := by
  refine ⟨(c9_amended 2 2 1 none).1, ?_⟩
  rw [((c9_amended 2 2 1 none).2.2 1 (by decide)).1]
  decide

end Zebra
